import Mathlib

/-!
Verification of the Epic Games download-manifest codec (`egs-api-rs`).

This file gives a shallow embedding of the relevant Rust source
(`src/api/utils.rs` and `src/api/types/download_manifest.rs`) and proves or
refutes the frozen claims about it.

Modelling conventions:
* Bytes are `Nat` values `< 256`; buffers are `List Nat`.
* Machine integers are `Nat` / `Int` with explicit `% 2 ^ w` wrapping where
  the Rust code can wrap in release builds; usize arithmetic wraps mod
  `2 ^ 64` (release semantics — where a debug build would instead abort on
  overflow this is noted at the definition).
* A Rust panic (out-of-bounds slice, `unwrap` on `Err`/`None`) is modelled by
  the `PRes.crash` constructor; a deliberate `return None` by `PRes.ok none`.
* Rust `HashMap`s are modelled as association lists; `insert` replaces the
  value at the first occurrence of the key and otherwise appends, `get` is
  the first match.  Iteration order of a Rust `HashMap` is arbitrary; the
  model iterates in list order, and every theorem below either does not
  depend on the order or uses maps with at most one entry.
* External collaborators are parameters: zlib compression/decompression
  (`flate2`) is an explicit function argument, `reqwest::Url` is modelled as
  the underlying string (`Url::parse` followed by rendering is the identity
  on the already-normalised URLs built by `download_links`), and
  `serde_json`'s text layer is modelled by a JSON value type.
-/

set_option autoImplicit false

/-- Result of running a piece of Rust code that can panic:
`crash` models a Rust panic, `ok` a normal return. -/
inductive PRes (α : Type) : Type where
  | crash : PRes α
  | ok : α → PRes α
  deriving DecidableEq, Repr

namespace PRes

/-- Sequencing that propagates a panic. -/
def pbind {α β : Type} : PRes α → (α → PRes β) → PRes β
  | .crash, _ => .crash
  | .ok a, f => f a

end PRes

/-! ### Association lists (model of `std::collections::HashMap`) -/

/-- First-match lookup, the model of `HashMap::get`. -/
def lookupAL {α : Type} : List (String × α) → String → Option α
  | [], _ => none
  | (a, b) :: t, k => if a = k then some b else lookupAL t k

/-- `HashMap::insert`: replace the value at the first occurrence of the key
(the stored key is not replaced), otherwise append the pair. -/
def insertAL {α : Type} : List (String × α) → String → α → List (String × α)
  | [], k, v => [(k, v)]
  | (a, b) :: t, k, v => if a = k then (a, v) :: t else (a, b) :: insertAL t k v

/-- The key set of an association list. -/
def keysAL {α : Type} (l : List (String × α)) : List String :=
  l.map Prod.fst

/-! ### Little-endian integers and wrapping arithmetic -/

/-- The four little-endian bytes of `v % 2 ^ 32` (Rust `u32::to_le_bytes`). -/
def le4 (v : Nat) : List Nat :=
  [v % 256, v / 256 % 256, v / 2 ^ 16 % 256, v / 2 ^ 24 % 256]

/-- The eight little-endian bytes of `v % 2 ^ 64` (Rust `u64::to_le_bytes`). -/
def le8 (v : Nat) : List Nat :=
  le4 v ++ le4 (v / 2 ^ 32)

/-- Value of a little-endian byte list. -/
def leVal : List Nat → Nat
  | [] => 0
  | b :: t => b + 256 * leVal t

/-- Reinterpret an unsigned `w`-bit value as a signed one (two's complement). -/
def toSigned (w v : Nat) : Int :=
  if v < 2 ^ (w - 1) then (v : Int) else (v : Int) - 2 ^ w

/-- Wrapping `i32` normalisation of an integer (release-build overflow). -/
def wrapI32 (z : Int) : Int :=
  (z + 2 ^ 31) % 2 ^ 32 - 2 ^ 31

/-- An `i32` (or any integer) cast `as usize`: two's complement mod `2 ^ 64`. -/
def toUsize (z : Int) : Nat :=
  (z % (2 ^ 64 : Int)).toNat

/-- Wrapping usize addition (release build). -/
def w64add (a b : Nat) : Nat :=
  (a + b) % 2 ^ 64

/-- Wrapping usize subtraction (release build; a debug build would abort
when `b % 2 ^ 64 > a`). -/
def w64sub (a b : Nat) : Nat :=
  (a + (2 ^ 64 - b % 2 ^ 64)) % 2 ^ 64

/-! ### Number formatting (Rust `format!` specifiers) -/

/-- Decimal digits of `n`, most significant first (`fuel`-bounded). -/
def decDigitsRev : Nat → Nat → List Nat
  | 0, _ => []
  | fuel + 1, n => if n = 0 then [] else n % 10 :: decDigitsRev fuel (n / 10)

/-- Hexadecimal digits of `n`, least significant first (`fuel`-bounded). -/
def hexDigitsRev : Nat → Nat → List Nat
  | 0, _ => []
  | fuel + 1, n => if n = 0 then [] else n % 16 :: hexDigitsRev fuel (n / 16)

/-- Lowercase hex digit character. -/
def hexChar (d : Nat) : Char :=
  if d < 10 then Char.ofNat (48 + d) else Char.ofNat (87 + d)

/-- Uppercase hex digit character. -/
def hexCharU (d : Nat) : Char :=
  if d < 10 then Char.ofNat (48 + d) else Char.ofNat (55 + d)

/-- Decimal digit character. -/
def decChar (d : Nat) : Char :=
  Char.ofNat (48 + d)

/-- `n` in decimal (Rust `{}` on an unsigned integer). -/
def fmtDec (n : Nat) : String :=
  if n = 0 then "0" else String.mk ((decDigitsRev n n).reverse.map decChar)

/-- `n` in lowercase hex (Rust `{:x}`). -/
def fmtHex (n : Nat) : String :=
  if n = 0 then "0" else String.mk ((hexDigitsRev n n).reverse.map hexChar)

/-- `n` in uppercase hex (Rust `{:X}`). -/
def fmtHexU (n : Nat) : String :=
  if n = 0 then "0" else String.mk ((hexDigitsRev n n).reverse.map hexCharU)

/-- Zero-pad a string on the left to width `w` (Rust `{:0w...}`). -/
def padZero (w : Nat) (s : String) : String :=
  String.mk (List.replicate (w - s.length) '0' ++ s.data)

/-- Rust `{:02}` — decimal, zero-padded to at least two digits. -/
def fmtDec02 (n : Nat) : String :=
  padZero 2 (fmtDec n)

/-- Rust `{:016X}` — uppercase hex, zero-padded to at least 16 digits. -/
def fmtHex016 (n : Nat) : String :=
  padZero 16 (fmtHexU n)

/-- Rust `{:08x}` — lowercase hex, zero-padded to at least 8 digits. -/
def fmtHex08 (n : Nat) : String :=
  padZero 8 (fmtHex n)

/-- Rust `{b:02x}` folded over a byte slice (lowercase hex rendering used for
SHA digests and file hashes). -/
def bytesToHex (bs : List Nat) : String :=
  String.join (bs.map fun b => padZero 2 (fmtHex b))

/-- ASCII uppercasing, the effect of Rust `str::to_uppercase` on the ASCII
GUID strings this codec manipulates. -/
def asciiUpper (s : String) : String :=
  String.mk (s.data.map fun c =>
    if 97 ≤ c.toNat ∧ c.toNat ≤ 122 then Char.ofNat (c.toNat - 32) else c)

/-! ### UTF-8 and UTF-16 -/

/-- UTF-8 encoding of a single scalar value. -/
def utf8EncodeChar (n : Nat) : List Nat :=
  if n < 0x80 then [n]
  else if n < 0x800 then [0xC0 + n / 64, 0x80 + n % 64]
  else if n < 0x10000 then [0xE0 + n / 4096, 0x80 + n / 64 % 64, 0x80 + n % 64]
  else [0xF0 + n / 262144, 0x80 + n / 4096 % 64, 0x80 + n / 64 % 64, 0x80 + n % 64]

/-- UTF-8 bytes of a string (Rust `str::as_bytes` / `String::into_bytes`). -/
def utf8Bytes (s : String) : List Nat :=
  s.data.flatMap fun c => utf8EncodeChar c.toNat

/-- Rust `String::len` — the UTF-8 byte length. -/
def utf8Len (s : String) : Nat :=
  (utf8Bytes s).length

/-- Whether a byte can start a UTF-8 encoded character (it is not a
continuation byte). -/
def utf8Boundary (b : Nat) : Bool :=
  b < 0x80 ∨ 0xC0 ≤ b

/-- Is `n` a Unicode scalar value? -/
def isScalar (n : Nat) : Bool :=
  (n < 0xD800 ∨ (0xE000 ≤ n ∧ n < 0x110000))

/-- Strict UTF-8 decoding (Rust `std::str::from_utf8`): `none` on any
malformed, overlong, surrogate or out-of-range sequence. -/
def utf8Decode : List Nat → Option (List Char)
  | [] => some []
  | b :: t =>
    if b < 0x80 then
      (utf8Decode t).map fun cs => Char.ofNat b :: cs
    else if 0xC2 ≤ b ∧ b < 0xE0 then
      match t with
      | c1 :: t1 =>
        if 0x80 ≤ c1 ∧ c1 < 0xC0 then
          (utf8Decode t1).map fun cs => Char.ofNat ((b - 0xC0) * 64 + (c1 - 0x80)) :: cs
        else none
      | _ => none
    else if 0xE0 ≤ b ∧ b < 0xF0 then
      match t with
      | c1 :: c2 :: t2 =>
        let n := (b - 0xE0) * 4096 + (c1 - 0x80) * 64 + (c2 - 0x80)
        if (0x80 ≤ c1 ∧ c1 < 0xC0) ∧ (0x80 ≤ c2 ∧ c2 < 0xC0) ∧ 0x800 ≤ n ∧ isScalar n then
          (utf8Decode t2).map fun cs => Char.ofNat n :: cs
        else none
      | _ => none
    else if 0xF0 ≤ b ∧ b < 0xF5 then
      match t with
      | c1 :: c2 :: c3 :: t3 =>
        let n := (b - 0xF0) * 262144 + (c1 - 0x80) * 4096 + (c2 - 0x80) * 64 + (c3 - 0x80)
        if (0x80 ≤ c1 ∧ c1 < 0xC0) ∧ (0x80 ≤ c2 ∧ c2 < 0xC0) ∧ (0x80 ≤ c3 ∧ c3 < 0xC0) ∧
            0x10000 ≤ n ∧ n < 0x110000 then
          (utf8Decode t3).map fun cs => Char.ofNat n :: cs
        else none
      | _ => none
    else none

/-- Rust `std::str::from_utf8(..).ok().map(str::to_string)`. -/
def utf8DecodeStr (bs : List Nat) : Option String :=
  (utf8Decode bs).map String.mk

/-- Group a byte list into little-endian `u16` code units
(`chunks_exact(2)` + `u16::from_ne_bytes` on a little-endian target). -/
def toU16LE : List Nat → List Nat
  | a :: b :: t => (a + 256 * b) :: toU16LE t
  | _ => []

/-- Rust `String::from_utf16_lossy`: surrogate pairs are combined, lone
surrogates decode to U+FFFD.  (`fuel`-bounded so the kernel can evaluate
it; the wrapper below supplies enough fuel for any input.) -/
def utf16LossyF : Nat → List Nat → List Char
  | 0, _ => []
  | _ + 1, [] => []
  | f + 1, u :: t =>
    if 0xD800 ≤ u ∧ u < 0xDC00 then
      match t with
      | v :: t1 =>
        if 0xDC00 ≤ v ∧ v < 0xE000 then
          Char.ofNat (0x10000 + (u - 0xD800) * 1024 + (v - 0xDC00)) :: utf16LossyF f t1
        else Char.ofNat 0xFFFD :: utf16LossyF f (v :: t1)
      | [] => [Char.ofNat 0xFFFD]
    else if 0xDC00 ≤ u ∧ u < 0xE000 then
      Char.ofNat 0xFFFD :: utf16LossyF f t
    else Char.ofNat u :: utf16LossyF f t

/-- `String::from_utf16_lossy` on a code-unit list. -/
def utf16Lossy (l : List Nat) : List Char :=
  utf16LossyF l.length l

/-! ### Decimal string parsing (Rust `str::parse::<u128>` / `BigUint`) -/

/-- Fold a list of ASCII digit bytes into a number; `none` if empty or any
byte is not an ASCII digit. -/
def digitsVal : List Nat → Option Nat
  | [] => none
  | bs => bs.foldl (fun acc b =>
      match acc with
      | none => none
      | some n => if 48 ≤ b ∧ b ≤ 57 then some (n * 10 + (b - 48)) else none)
      (some 0)

/-- Rust `str::parse` for an unsigned decimal integer, on UTF-8 bytes:
an optional leading `+`, then one or more ASCII digits.  (No width cap is
modelled: the call sites parse at most 3-character groups, far below
`u128::MAX`, and the `BigUint` parser is unbounded.) -/
def parseDecimal : List Nat → Option Nat
  | 43 :: rest => if rest = [] then none else digitsVal rest
  | bs => digitsVal bs

/-! ### The blob codec (`src/api/utils.rs`) -/

/-- Core of `blob_to_num` / `bigblob_to_num`, over the UTF-8 bytes of the
input.  Walks 3-byte groups; a group that parses adds `n << shift`
(`checked_shl`: zero once `shift ≥ cap`, with the shifted value wrapped to
`cap` bits) and advances `shift` by 8; a group that does not parse changes
nothing.  `cap = none` is the `BigUint` variant (no wrapping, no shift cap).
`none` models the Rust panics: a trailing partial group
(`string[i..i+3]` out of range) or a slice boundary inside a multi-byte
character. -/
def blobCore (cap : Option Nat) : List Nat → Nat → Nat → Option Nat
  | [], num, _ => some num
  | b0 :: b1 :: b2 :: rest, num, shift =>
    if utf8Boundary b0 ∧ (rest.head?.all utf8Boundary) then
      match parseDecimal [b0, b1, b2] with
      | some n =>
        let term := match cap with
          | some w => if shift < w then n * 2 ^ shift % 2 ^ w else 0
          | none => n * 2 ^ shift
        let num' := match cap with
          | some w => (num + term) % 2 ^ w
          | none => num + term
        blobCore cap rest num' (shift + 8)
      | none => blobCore cap rest num shift
    else none
  | _, _, _ => none

/-- `blob_to_num` (`u128` variant).  `none` models a panic; `num += ...` is
modelled with mod-`2 ^ 128` wrapping (a debug build would abort on overflow,
which none of the inputs used below can trigger). -/
def blob_to_num (s : String) : Option Nat :=
  blobCore (some 128) (utf8Bytes s) 0 0

/-- `bigblob_to_num` (`BigUint` variant, no wrapping). -/
def bigblob_to_num (s : String) : Option Nat :=
  blobCore none (utf8Bytes s) 0 0

/-! ### SHA-1 (the `sha1` crate dependency, a pure standard function) -/

/-- 32-bit left rotation. -/
def rotl32 (k v : Nat) : Nat :=
  (v * 2 ^ k + v / 2 ^ (32 - k)) % 2 ^ 32

/-- SHA-1 padding: `0x80`, zeros, and the 64-bit big-endian bit length. -/
def sha1Pad (msg : List Nat) : List Nat :=
  let l := msg.length
  let zeros := (119 - l % 64) % 64
  msg ++ 128 :: List.replicate zeros 0 ++
    [l * 8 / 2 ^ 56 % 256, l * 8 / 2 ^ 48 % 256, l * 8 / 2 ^ 40 % 256, l * 8 / 2 ^ 32 % 256,
     l * 8 / 2 ^ 24 % 256, l * 8 / 2 ^ 16 % 256, l * 8 / 2 ^ 8 % 256, l * 8 % 256]

/-- Big-endian 32-bit words of a byte list. -/
def beWords : List Nat → List Nat
  | a :: b :: c :: d :: t => (((a * 256 + b) * 256 + c) * 256 + d) :: beWords t
  | _ => []

/-- Message-schedule extension from 16 to 80 words. -/
def sha1Extend (fuel : Nat) (w : List Nat) : List Nat :=
  match fuel with
  | 0 => w
  | f + 1 =>
    let i := w.length
    let x := (w.getD (i - 3) 0) ^^^ (w.getD (i - 8) 0) ^^^
             (w.getD (i - 14) 0) ^^^ (w.getD (i - 16) 0)
    sha1Extend f (w ++ [rotl32 1 x])

/-- One SHA-1 round. -/
def sha1Round (st : Nat × Nat × Nat × Nat × Nat) (iw : Nat × Nat) :
    Nat × Nat × Nat × Nat × Nat :=
  let (a, b, c, d, e) := st
  let (i, w) := iw
  let f :=
    if i < 20 then (b &&& c) ||| ((2 ^ 32 - 1 - b) &&& d)
    else if i < 40 then b ^^^ c ^^^ d
    else if i < 60 then (b &&& c) ||| (b &&& d) ||| (c &&& d)
    else b ^^^ c ^^^ d
  let k :=
    if i < 20 then 0x5A827999
    else if i < 40 then 0x6ED9EBA1
    else if i < 60 then 0x8F1BBCDC
    else 0xCA62C1D6
  let tmp := (rotl32 5 a + f + e + k + w) % 2 ^ 32
  (tmp, a, rotl32 30 b, c, d)

/-- Process one 64-byte block. -/
def sha1Block (blk : List Nat) (h : Nat × Nat × Nat × Nat × Nat) :
    Nat × Nat × Nat × Nat × Nat :=
  let w := sha1Extend 64 (beWords blk)
  let (h0, h1, h2, h3, h4) := h
  let (a, b, c, d, e) :=
    ((List.range 80).zip w).foldl sha1Round (h0, h1, h2, h3, h4)
  ((h0 + a) % 2 ^ 32, (h1 + b) % 2 ^ 32, (h2 + c) % 2 ^ 32, (h3 + d) % 2 ^ 32, (h4 + e) % 2 ^ 32)

/-- Process the padded message 64 bytes at a time (`fuel`-bounded). -/
def sha1Chunks : Nat → List Nat → (Nat × Nat × Nat × Nat × Nat) →
    Nat × Nat × Nat × Nat × Nat
  | 0, _, h => h
  | _ + 1, [], h => h
  | f + 1, bytes, h => sha1Chunks f (bytes.drop 64) (sha1Block (bytes.take 64) h)

/-- Big-endian bytes of a 32-bit word. -/
def be4 (v : Nat) : List Nat :=
  [v / 2 ^ 24 % 256, v / 2 ^ 16 % 256, v / 2 ^ 8 % 256, v % 256]

/-- SHA-1 digest, 20 bytes (`Sha1::digest`). -/
def sha1 (msg : List Nat) : List Nat :=
  let p := sha1Pad msg
  let (h0, h1, h2, h3, h4) :=
    sha1Chunks (p.length / 64 + 1) p (0x67452301, 0xEFCDAB89, 0x98BADCFE, 0x10325476, 0xC3D2E1F0)
  be4 h0 ++ be4 h1 ++ be4 h2 ++ be4 h3 ++ be4 h4

/-! ### Primitive readers (`src/api/utils.rs`) -/

/-- `buffer[start..stop]`: panics (`crash`) unless `start ≤ stop ≤ len`. -/
def sliceP (buf : List Nat) (start stop : Nat) : PRes (List Nat) :=
  if start ≤ stop ∧ stop ≤ buf.length then .ok ((buf.drop start).take (stop - start))
  else .crash

/-- `do_vecs_match`. -/
def do_vecs_match (a b : List Nat) : Bool :=
  let matching := ((a.zip b).filter fun p => p.1 = p.2).length
  matching = a.length ∧ matching = b.length

/-- `read_le`: advance the cursor by 4 and read a little-endian `u32`. -/
def read_le (buf : List Nat) (pos : Nat) : PRes (Nat × Nat) :=
  (sliceP buf pos (pos + 4)).pbind fun bs => .ok (leVal bs, pos + 4)

/-- `read_le_signed`: little-endian `i32`. -/
def read_le_signed (buf : List Nat) (pos : Nat) : PRes (Int × Nat) :=
  (sliceP buf pos (pos + 4)).pbind fun bs => .ok (toSigned 32 (leVal bs), pos + 4)

/-- `read_le_64`: little-endian `u64`. -/
def read_le_64 (buf : List Nat) (pos : Nat) : PRes (Nat × Nat) :=
  (sliceP buf pos (pos + 8)).pbind fun bs => .ok (leVal bs, pos + 8)

/-- `read_le_64_signed`: little-endian `i64`. -/
def read_le_64_signed (buf : List Nat) (pos : Nat) : PRes (Int × Nat) :=
  (sliceP buf pos (pos + 8)).pbind fun bs => .ok (toSigned 64 (leVal bs), pos + 8)

/-- `read_fstring`.  Reads an `i32` length `L`; `L > 0` consumes `L` bytes
and UTF-8-decodes all but the last (`None` if invalid, cursor advanced
either way); `L < 0` multiplies by `-2` (wrapping `i32`, a genuine overflow
for `L ≤ -2^30`), consumes that many bytes and UTF-16LE-decodes all but the
last pair (lossily); `L = 0` yields `None`. -/
def read_fstring (buf : List Nat) (pos : Nat) : PRes (Option String × Nat) :=
  (read_le_signed buf pos).pbind fun (len0, pos1) =>
    if len0 < 0 then
      let len := wrapI32 (len0 * (-2))
      let add := toUsize len
      let pos2 := w64add pos1 add
      (sliceP buf (w64sub pos2 add) (w64sub pos2 2)).pbind fun bs =>
        .ok (some (String.mk (utf16Lossy (toU16LE bs))), pos2)
    else if len0 = 0 then .ok (none, pos1)
    else
      let add := len0.toNat
      let pos2 := w64add pos1 add
      (sliceP buf (w64sub pos2 add) (w64sub pos2 1)).pbind fun bs =>
        .ok (utf8DecodeStr bs, pos2)

/-- `decode_hex`: hex string to bytes; `Err` (`none`) on a bad digit pair,
panic (`crash`) when the length is odd (`s[i..i+2]` runs out of range). -/
def decode_hex_core : List Nat → PRes (Option (List Nat))
  | [] => .ok (some [])
  | [_] => .crash
  | a :: b :: t =>
    let hv (c : Nat) : Option Nat :=
      if 48 ≤ c ∧ c ≤ 57 then some (c - 48)
      else if 97 ≤ c ∧ c ≤ 102 then some (c - 87)
      else if 65 ≤ c ∧ c ≤ 70 then some (c - 55)
      else none
    match hv a, hv b with
    | some x, some y =>
      (decode_hex_core t).pbind fun r => .ok (r.map fun bs => (x * 16 + y) :: bs)
    | _, _ => .ok none

/-- `decode_hex` on a string. -/
def decode_hex (s : String) : PRes (Option (List Nat)) :=
  decode_hex_core (utf8Bytes s)

/-- `write_fstring`: empty string → 4 zero bytes; otherwise little-endian
`u32` of byte-length + 1, the UTF-8 bytes, and one NUL byte. -/
def write_fstring (s : String) : List Nat :=
  if s = "" then le4 0
  else le4 (utf8Len s + 1) ++ utf8Bytes s ++ [0]

/-! ### Data model (`src/api/types/download_manifest.rs`) -/

/-- `reqwest::Url`, modelled as its string rendering. -/
abbrev Url := String

/-- `FileChunkPart`. -/
structure FileChunkPart where
  guid : String
  link : Option Url
  offset : Nat
  size : Nat
  deriving DecidableEq, Repr

/-- `FileManifestList` (one file record). -/
structure FileManifestList where
  filename : String
  file_hash : String
  file_chunk_parts : List FileChunkPart
  deriving DecidableEq, Repr

/-- `DownloadManifest`.  `u128` fields are `Nat` (always `< 2 ^ 128` when
produced by the embedded operations); hash maps are association lists. -/
structure DownloadManifest where
  manifest_file_version : Nat
  b_is_file_data : Bool
  app_id : Nat
  app_name_string : String
  build_version_string : String
  uninstall_action_path : Option String
  uninstall_action_args : Option String
  launch_exe_string : String
  launch_command : String
  prereq_ids : Option (List String)
  prereq_name : String
  prereq_path : String
  prereq_args : String
  file_manifest_list : List FileManifestList
  chunk_hash_list : List (String × Nat)
  chunk_sha_list : Option (List (String × String))
  data_group_list : List (String × Nat)
  chunk_filesize_list : List (String × Nat)
  custom_fields : Option (List (String × String))
  deriving DecidableEq, Repr

/-- `Default::default()` for `DownloadManifest` (all fields empty/zero; the
derived `Default` makes the `Option` maps `None`). -/
def DownloadManifest.default : DownloadManifest where
  manifest_file_version := 0
  b_is_file_data := false
  app_id := 0
  app_name_string := ""
  build_version_string := ""
  uninstall_action_path := none
  uninstall_action_args := none
  launch_exe_string := ""
  launch_command := ""
  prereq_ids := none
  prereq_name := ""
  prereq_path := ""
  prereq_args := ""
  file_manifest_list := []
  chunk_hash_list := []
  chunk_sha_list := none
  data_group_list := []
  chunk_filesize_list := []
  custom_fields := none

/-- `FileManifestList::size`: sum of the chunk-part sizes. -/
def FileManifestList.size (f : FileManifestList) : Nat :=
  (f.file_chunk_parts.map fun p => p.size).sum

/-- `DownloadManifest::chunk_dir`. -/
def DownloadManifest.chunk_dir (version : Nat) : String :=
  if version ≥ 15 then "ChunksV4"
  else if version ≥ 6 then "ChunksV3"
  else if version ≥ 3 then "ChunksV2"
  else "Chunks"

/-- `DownloadManifest::set_custom_field`. -/
def DownloadManifest.set_custom_field (m : DownloadManifest) (key value : String) :
    DownloadManifest :=
  match m.custom_fields with
  | some fields => { m with custom_fields := some (insertAL fields key value) }
  | none => { m with custom_fields := some [(key, value)] }

/-- `DownloadManifest::custom_field`. -/
def DownloadManifest.custom_field (m : DownloadManifest) (key : String) : Option String :=
  match m.custom_fields with
  | some fields => lookupAL fields key
  | none => none

/-- The URL built for one chunk:
`format!("{}/{}/{:02}/{:016X}_{}.chunk", url, chunk_dir, group_num, hash, guid.to_uppercase())`. -/
def chunkUrl (url chunkDir : String) (groupNum hash : Nat) (guid : String) : String :=
  url ++ "/" ++ chunkDir ++ "/" ++ fmtDec02 groupNum ++ "/" ++ fmtHex016 hash ++
    "_" ++ asciiUpper guid ++ ".chunk"

/-- The loop body of `download_links`: for each `(guid, hash)` of the chunk
hash list, skip the chunk if its GUID has no data group, else insert its
URL.  (`Url::parse(..).unwrap()` is modelled as the identity: the strings
built here from the well-formed bases used below round-trip through
`reqwest::Url` unchanged.) -/
def linksFold (groups : List (String × Nat)) (url chunkDir : String) :
    List (String × Nat) → List (String × Url) → List (String × Url)
  | [], acc => acc
  | (guid, hash) :: rest, acc =>
    match lookupAL groups guid with
    | none => linksFold groups url chunkDir rest acc
    | some groupNum =>
      linksFold groups url chunkDir rest
        (insertAL acc guid (chunkUrl url chunkDir groupNum hash guid))

/-- `DownloadManifest::download_links`: `None` when neither `SourceURL` nor
`BaseUrl` is a custom field; otherwise a map from chunk GUID to URL. -/
def DownloadManifest.download_links (m : DownloadManifest) : Option (List (String × Url)) :=
  let url? :=
    match m.custom_field "SourceURL" with
    | some uri => some uri
    | none =>
      match m.custom_field "BaseUrl" with
      | none => none
      | some urls => (urls.splitOn ",").head?
  match url? with
  | none => none
  | some url =>
    some (linksFold m.data_group_list url
      (DownloadManifest.chunk_dir m.manifest_file_version) m.chunk_hash_list [])

/-- The per-file projection built by `files()`: chunk parts whose GUID is
not in the link map are dropped (`continue`), the rest get their URL. -/
def projectFile (links : List (String × Url)) (f : FileManifestList) : FileManifestList where
  filename := f.filename
  file_hash := f.file_hash
  file_chunk_parts := f.file_chunk_parts.filterMap fun p =>
    (lookupAL links p.guid).map fun u =>
      { guid := p.guid, link := some u, offset := p.offset, size := p.size }

/-- The loop of `files()`: insert each projected file under its filename. -/
def filesFold (links : List (String × Url)) :
    List FileManifestList → List (String × FileManifestList) → List (String × FileManifestList)
  | [], acc => acc
  | f :: rest, acc => filesFold links rest (insertAL acc f.filename (projectFile links f))

/-- `DownloadManifest::files`. -/
def DownloadManifest.files (m : DownloadManifest) : List (String × FileManifestList) :=
  filesFold (m.download_links.getD []) m.file_manifest_list []

/-- `DownloadManifest::total_download_size`: sum of the chunk file sizes. -/
def DownloadManifest.total_download_size (m : DownloadManifest) : Nat :=
  (m.chunk_filesize_list.map fun p => p.2).sum

/-- `DownloadManifest::total_size`: sum of the derived file sizes. -/
def DownloadManifest.total_size (m : DownloadManifest) : Nat :=
  (m.file_manifest_list.map FileManifestList.size).sum

/-! ### Binary parsing (`DownloadManifest::from_vec`) -/

/-- Reader monad for the section decoder: a buffer and a cursor, with
panic propagation. -/
def RM (α : Type) : Type :=
  List Nat → Nat → PRes (α × Nat)

instance : Monad RM where
  pure a := fun _ pos => .ok (a, pos)
  bind x f := fun buf pos =>
    match x buf pos with
    | .crash => .crash
    | .ok (a, pos') => f a buf pos'

/-- `buffer[position]` followed by `position += 1`. -/
def read_u8 (buf : List Nat) (pos : Nat) : PRes (Nat × Nat) :=
  if pos < buf.length then .ok (buf.getD pos 0, pos + 1) else .crash

/-- Lifted readers. -/
def rLe : RM Nat := read_le

def rLe64 : RM Nat := read_le_64

def rLe64S : RM Int := read_le_64_signed

def rByte : RM Nat := read_u8

def rFstr : RM (Option String) := read_fstring

/-- `position += n; buffer[position - n..position]`. -/
def rBytes (n : Nat) : RM (List Nat) := fun buf pos =>
  (sliceP buf pos (pos + n)).pbind fun bs => .ok (bs, pos + n)

def rGetPos : RM Nat := fun _ pos => .ok (pos, pos)

def rSetPos (p : Nat) : RM Unit := fun _ _ => .ok ((), p)

/-- `for _ in 0..n` collecting the results. -/
def rRepeat {α : Type} : Nat → RM α → RM (List α)
  | 0, _ => pure []
  | n + 1, act => do
    let a ← act
    let rest ← rRepeat n act
    pure (a :: rest)

/-- Read `4 × u32` and format the 128-bit GUID as `{:08x}{:08x}{:08x}{:08x}`. -/
def rGuid : RM String := do
  let a ← rLe
  let b ← rLe
  let c ← rLe
  let d ← rLe
  pure (fmtHex08 a ++ fmtHex08 b ++ fmtHex08 c ++ fmtHex08 d)

/-- One chunk part of the files section: its `u32` self-size, the GUID,
offset and size, then the skip adjustment
`diff = position - total - chunk_size; if diff > 0 { position += diff }`
computed in wrapping usize arithmetic (a debug build would abort on the
underflow when `chunk_size > position - total`). -/
def rChunkPart : RM FileChunkPart := do
  let total ← rGetPos
  let chunkSize ← rLe
  let guid ← rGuid
  let offset ← rLe
  let size ← rLe
  let p ← rGetPos
  let diff := w64sub (w64sub p total) chunkSize
  if diff > 0 then rSetPos (w64add p diff) else pure ()
  pure { guid := guid, link := none, offset := offset, size := size }

/-- The four sections of `from_vec` after the envelope (metadata, chunks,
files, custom fields), producing the manifest.  The debug-log length
consistency subtractions of the source (including the final
`position - ... != 0` warning) only feed log output and are not modelled. -/
def parseSections : RM DownloadManifest := do
  -- Manifest Meta
  let _metaSize ← rLe
  let dataVersion ← rByte
  let manifestFileVersion ← rLe
  let isFileData ← rByte
  let appId ← rLe
  let appName ← rFstr
  let buildVersion ← rFstr
  let launchExe ← rFstr
  let launchCommand ← rFstr
  let entries ← rLe
  let prereqRaw ← rRepeat entries rFstr
  let prereqIds := prereqRaw.filterMap id
  let prereqName ← rFstr
  let prereqPath ← rFstr
  let prereqArgs ← rFstr
  let buildVersion2 ← if dataVersion ≥ 1 then rFstr else pure buildVersion
  let uninstallPath ← if dataVersion ≥ 2 then do
      let s ← rFstr
      pure (some (s.getD ""))
    else pure none
  let uninstallArgs ← if dataVersion ≥ 2 then do
      let s ← rFstr
      pure (some (s.getD ""))
    else pure none
  -- Chunks
  let _chunkSize ← rLe
  let _chunkVersion ← rByte
  let chunkCount ← rLe
  let guids ← rRepeat chunkCount rGuid
  let hashes ← rRepeat chunkCount rLe64
  let shas ← rRepeat chunkCount (rBytes 20)
  let groups ← rRepeat chunkCount rByte
  let _windows ← rRepeat chunkCount rLe
  let fileSizes ← rRepeat chunkCount rLe64S
  -- File Manifest
  let _fmSize ← rLe
  let fmVersion ← rByte
  let fileCount ← rLe
  let filenames ← rRepeat fileCount rFstr
  let _symlinks ← rRepeat fileCount rFstr
  let fileHashes ← rRepeat fileCount (rBytes 20)
  let _flags ← rRepeat fileCount rByte
  let _tags ← rRepeat fileCount (do
    let c ← rLe
    let _ ← rRepeat c rFstr
    pure ())
  let parts ← rRepeat fileCount (do
    let c ← rLe
    rRepeat c rChunkPart)
  let _md5s ← if fmVersion ≥ 1 then
      rRepeat fileCount (do
        let hasMd5 ← rLe
        if hasMd5 ≠ 0 then rBytes 16 else pure [])
    else pure []
  let _mimes ← if fmVersion ≥ 1 then rRepeat fileCount rFstr else pure []
  let _sha256s ← if fmVersion ≥ 2 then rRepeat fileCount (rBytes 32) else pure []
  -- Custom Fields
  let _cfSize ← rLe
  let _cfVersion ← rByte
  let cfCount ← rLe
  let keys ← rRepeat cfCount rFstr
  let values ← rRepeat cfCount rFstr
  let customFields :=
    ((keys.map fun k => k.getD "").zip (values.map fun v => v.getD "")).foldl
      (fun acc kv => insertAL acc kv.1 kv.2) []
  pure {
    manifest_file_version := manifestFileVersion
    b_is_file_data := isFileData ≠ 0
    app_id := appId
    app_name_string := appName.getD ""
    build_version_string := buildVersion2.getD ""
    uninstall_action_path := uninstallPath
    uninstall_action_args := uninstallArgs
    launch_exe_string := launchExe.getD ""
    launch_command := launchCommand.getD ""
    prereq_ids := if prereqIds.isEmpty then none else some prereqIds
    prereq_name := prereqName.getD ""
    prereq_path := prereqPath.getD ""
    prereq_args := prereqArgs.getD ""
    file_manifest_list :=
      (filenames.zip (fileHashes.zip parts)).map fun fp =>
        { filename := fp.1.getD ""
          file_hash := bytesToHex fp.2.1
          file_chunk_parts := fp.2.2 }
    chunk_hash_list :=
      (guids.zip hashes).foldl (fun acc gh => insertAL acc gh.1 gh.2) []
    chunk_sha_list :=
      some ((guids.zip shas).foldl (fun acc gs => insertAL acc gs.1 (bytesToHex gs.2)) [])
    data_group_list :=
      (guids.zip groups).foldl (fun acc gg => insertAL acc gg.1 gg.2) []
    chunk_filesize_list :=
      (guids.zip fileSizes).foldl
        (fun acc gf => insertAL acc gf.1 (if gf.2 < 0 then 0 else gf.2.toNat)) []
    custom_fields := some customFields }

/-- `DownloadManifest::from_vec`.  `decomp` is the `flate2` zlib decoder
(`Except.error` models a decode error, which the source `unwrap`s — a
panic).  The SHA-1 of the decompressed payload is compared to the header
digest only on the compressed path, exactly as in the source. -/
def DownloadManifest.from_vec (decomp : List Nat → Except Unit (List Nat))
    (buffer : List Nat) : PRes (Option DownloadManifest) :=
  match read_le buffer 0 with
  | .crash => .crash
  | .ok (magic, p1) =>
    if magic ≠ 1153351692 then .ok none
    else
      match read_le buffer p1 with
      | .crash => .crash
      | .ok (_headerSize, p2) =>
        match read_le buffer p2 with
        | .crash => .crash
        | .ok (_sizeUncompressed, p3) =>
          match read_le buffer p3 with
          | .crash => .crash
          | .ok (_sizeCompressed, p4) =>
            match sliceP buffer p4 (p4 + 20) with
            | .crash => .crash
            | .ok shaHash =>
              match read_u8 buffer (p4 + 20) with
              | .crash => .crash
              | .ok (storedAs, p5) =>
                match read_le buffer p5 with
                | .crash => .crash
                | .ok (_version, p6) =>
                  if storedAs ≠ 0 then
                    match decomp (buffer.drop p6) with
                    | .error _ => .crash
                    | .ok data =>
                      if do_vecs_match shaHash (sha1 data) then
                        match parseSections data 0 with
                        | .crash => .crash
                        | .ok (res, _) => .ok (some res)
                      else .ok none
                  else
                    match parseSections buffer p6 with
                    | .crash => .crash
                    | .ok (res, _) => .ok (some res)

/-! ### Binary serialization (`DownloadManifest::to_vec`) -/

/-- Concatenate the outputs of a fallible per-element serializer. -/
def pmapFlat {α : Type} (f : α → PRes (List Nat)) : List α → PRes (List Nat)
  | [] => .ok []
  | a :: t =>
    (f a).pbind fun bs => (pmapFlat f t).pbind fun rest => .ok (bs ++ rest)

/-- Split a byte list into groups of (at most) 8, as `slice::chunks(8)`. -/
def chunksOf8 (l : List Nat) : List (List Nat) :=
  if l = [] then []
  else if l.length ≤ 8 then [l]
  else l.take 8 :: chunksOf8 (l.drop 8)
  termination_by l.length
  decreasing_by simp_all [List.length_drop]; omega

/-- Hex digit value. -/
def hexDigitVal (c : Nat) : Option Nat :=
  if 48 ≤ c ∧ c ≤ 57 then some (c - 48)
  else if 97 ≤ c ∧ c ≤ 102 then some (c - 87)
  else if 65 ≤ c ∧ c ≤ 70 then some (c - 55)
  else none

/-- `u32::from_str_radix(s, 16)` on UTF-8 bytes: optional `+`, then one or
more hex digits, value below `2 ^ 32`. -/
def hexParseU32 (bs0 : List Nat) : Option Nat :=
  let bs := match bs0 with
    | 43 :: rest => rest
    | _ => bs0
  match bs with
  | [] => none
  | _ =>
    let v := bs.foldl (fun acc b =>
      match acc, hexDigitVal b with
      | some n, some d => some (n * 16 + d)
      | _, _ => none) (some 0)
    match v with
    | some n => if n < 2 ^ 32 then some n else none
    | none => none

/-- The GUID serializer of `to_vec`: split the GUID string's bytes into
groups of 8, re-validate each as UTF-8 (`unwrap`: panic on failure) and
parse it as hex into a `u32` (`unwrap` again), emitting little-endian
bytes. -/
def guidBytes (guid : String) : PRes (List Nat) :=
  pmapFlat (fun g =>
      match utf8Decode g with
      | none => .crash
      | some _ =>
        match hexParseU32 g with
        | none => .crash
        | some v => .ok (le4 v))
    (chunksOf8 (utf8Bytes guid))

/-- `Vec::resize(n, fill)`: truncate to `n` or pad with `fill`. -/
def vecResize (l : List Nat) (n : Nat) (fill : Nat) : List Nat :=
  if n ≤ l.length then l.take n else l ++ List.replicate (n - l.length) fill

/-- `decode_hex` as used by the writer: a decode error yields 20 zero
bytes, a panic propagates. -/
def hashFieldBytes (s : String) : PRes (List Nat) :=
  (decode_hex s).pbind fun r =>
    match r with
    | some bs => .ok bs
    | none => .ok (List.replicate 20 0)

/-- `DownloadManifest::to_vec`.  `compress` is the `flate2` zlib encoder
(default level).  The source's known slips are reproduced faithfully:
`b_is_file_data` is written as a constant 0, uninstall fields are never
written, `files.resize(file_manifest_list.len(), 0)` truncates everything
written to the files section so far (the intent was to push one flags byte
per file), and an absent custom-fields map writes its count as a single
byte instead of a `u32`. -/
def DownloadManifest.to_vec (compress : List Nat → List Nat) (m : DownloadManifest) :
    PRes (List Nat) :=
  -- Metadata section
  let meta : List Nat :=
    [if m.build_version_string = "" then 0 else 1] ++
    (if m.manifest_file_version < 2 ^ 32 then le4 m.manifest_file_version else le4 18) ++
    [0] ++
    (if m.app_id < 2 ^ 32 then le4 m.app_id else le4 0) ++
    write_fstring m.app_name_string ++
    write_fstring m.build_version_string ++
    write_fstring m.launch_exe_string ++
    write_fstring m.launch_command ++
    (match m.prereq_ids with
      | none => le4 0
      | some ids => le4 ids.length ++ (ids.map write_fstring).flatten) ++
    write_fstring m.prereq_name ++
    write_fstring m.prereq_path ++
    write_fstring m.prereq_args ++
    (if m.build_version_string = "" then [] else write_fstring m.build_version_string)
  -- Chunks section
  (match m.chunk_sha_list with
    | none => (.crash : PRes (List (String × String)))
    | some shaList => .ok shaList).pbind fun shaList =>
  (pmapFlat (fun (gh : String × Nat) => guidBytes gh.1) m.chunk_hash_list).pbind fun guidPart =>
  (pmapFlat (fun (gs : String × String) => hashFieldBytes gs.2) shaList).pbind fun shaPart =>
  let chunks : List Nat :=
    [0] ++ le4 m.chunk_hash_list.length ++
    guidPart ++
    (m.chunk_hash_list.map fun (gh : String × Nat) => if gh.2 < 2 ^ 64 then le8 gh.2 else le8 0).flatten ++
    shaPart ++
    (m.data_group_list.map fun (gg : String × Nat) => [if gg.2 < 2 ^ 8 then gg.2 else 0]).flatten ++
    (m.chunk_filesize_list.map fun (gf : String × Nat) => if gf.2 < 2 ^ 32 then le4 gf.2 else le4 0).flatten ++
    (m.chunk_filesize_list.map fun (gf : String × Nat) => if gf.2 < 2 ^ 63 then le8 gf.2 else le8 0).flatten
  -- File-manifest section
  (pmapFlat (fun (f : FileManifestList) => hashFieldBytes f.file_hash) m.file_manifest_list).pbind fun hashPart =>
  (pmapFlat (fun (f : FileManifestList) =>
      (pmapFlat (fun (p : FileChunkPart) =>
          (guidBytes p.guid).pbind fun gb =>
            .ok (le4 28 ++ gb ++
              (if p.offset < 2 ^ 32 then le4 p.offset else le4 0) ++
              (if p.size < 2 ^ 32 then le4 p.size else le4 0)))
        f.file_chunk_parts).pbind fun partsBytes =>
        .ok (le4 f.file_chunk_parts.length ++ partsBytes))
    m.file_manifest_list).pbind fun chunkPartsPart =>
  let files0 : List Nat :=
    [0] ++ le4 m.file_manifest_list.length ++
    (m.file_manifest_list.map fun (f : FileManifestList) => write_fstring f.filename).flatten ++
    (m.file_manifest_list.map fun _ => write_fstring "").flatten ++
    hashPart
  -- `files.resize(self.file_manifest_list.len(), 0)`
  let files1 := vecResize files0 m.file_manifest_list.length 0
  let files : List Nat :=
    files1 ++
    (m.file_manifest_list.map fun _ => le4 0).flatten ++
    chunkPartsPart
  -- Custom-fields section
  let custom : List Nat :=
    [0] ++
    (match m.custom_fields with
      | none => [0]
      | some cf =>
        le4 cf.length ++
        (cf.map fun (kv : String × String) => write_fstring kv.1).flatten ++
        (cf.map fun (kv : String × String) => write_fstring kv.2).flatten)
  let data : List Nat :=
    le4 (meta.length + 4) ++ meta ++
    le4 (chunks.length + 4) ++ chunks ++
    le4 (files.length + 4) ++ files ++
    le4 (custom.length + 4) ++ custom
  let compressed := compress data
  .ok (le4 1153351692 ++ le4 41 ++ le4 data.length ++ le4 compressed.length ++
    sha1 data ++ [1] ++ le4 18 ++ compressed)

/-! ### The parse facade (`DownloadManifest::parse`) -/

/-- `DownloadManifest::parse`: try binary, fall back to JSON
(`jsonParse` models `serde_json::from_slice`), and stamp
`DownloadedManifestHash` with the SHA-1 (`{:x}`) of the raw input. -/
def DownloadManifest.parse (decomp : List Nat → Except Unit (List Nat))
    (jsonParse : List Nat → Option DownloadManifest) (data : List Nat) :
    PRes (Option DownloadManifest) :=
  let hash := bytesToHex (sha1 data)
  match DownloadManifest.from_vec decomp data with
  | .crash => .crash
  | .ok (some dm) => .ok (some (dm.set_custom_field "DownloadedManifestHash" hash))
  | .ok none =>
    match jsonParse data with
    | some dm => .ok (some (dm.set_custom_field "DownloadedManifestHash" hash))
    | none => .ok none

/-! ### Concrete binary inputs used by the claims -/

/-- Identity "compression" — a valid instantiation of the abstract
zlib pair (`zlibId` below inverts it). -/
def idCompress (data : List Nat) : List Nat := data

/-- The matching "decompression": always succeeds, returns the input. -/
def idDecomp (data : List Nat) : Except Unit (List Nat) := .ok data

/-- A JSON fallback that never parses (the JSON branch is irrelevant for the
binary inputs below). -/
def noJson (_ : List Nat) : Option DownloadManifest := none

/-- The round-trip input of C1: the default manifest with an empty (but
present) chunk-SHA map — the minimal value `to_vec` accepts without
panicking on `chunk_sha_list.as_ref().unwrap()`. -/
def m0 : DownloadManifest :=
  { DownloadManifest.default with chunk_sha_list := some [] }

/-- An envelope + section assembly for hand-built test buffers: magic,
header size 41, sizes, digest, stored-as flag, version, then payload. -/
def mkEnvelope (digest : List Nat) (storedAs : Nat) (payload : List Nat) : List Nat :=
  le4 1153351692 ++ le4 41 ++ le4 payload.length ++ le4 payload.length ++
    digest ++ [storedAs] ++ le4 0 ++ payload

/-- A minimal valid metadata section: size 46, data version 0, feature
level 0, not file data, app id 0, four empty strings, no prereqs, three
empty strings. -/
def metaSection : List Nat :=
  le4 46 ++ [0] ++ le4 0 ++ [0] ++ le4 0 ++
    le4 0 ++ le4 0 ++ le4 0 ++ le4 0 ++
    le4 0 ++
    le4 0 ++ le4 0 ++ le4 0

/-- An empty section (chunks / files / custom fields with count 0):
size 9, version 0, count 0. -/
def emptySection : List Nat :=
  le4 9 ++ [0] ++ le4 0

/-- C2's counterexample buffer: a well-formed *uncompressed* binary
manifest whose header digest is 20 zero bytes — not the SHA-1 of the
payload. -/
def c2payload : List Nat :=
  metaSection ++ emptySection ++ emptySection ++ emptySection

/-- The C2 envelope: stored-as 0 (raw), digest all zeros. -/
def c2bytes : List Nat :=
  mkEnvelope (List.replicate 20 0) 0 c2payload

/-- The manifest `from_vec` produces for `c2bytes`. -/
def c2manifest : DownloadManifest :=
  { DownloadManifest.default with
    chunk_sha_list := some []
    custom_fields := some [] }

/-- One chunk record for the C4 buffers: GUID `0x00000001` four times,
rolling hash `0x11`, zero SHA, data group 7, window 0, file size 4. -/
def c4chunkSection : List Nat :=
  le4 70 ++ [0] ++ le4 1 ++
    (le4 1 ++ le4 1 ++ le4 1 ++ le4 1) ++
    le8 17 ++
    List.replicate 20 0 ++
    [7] ++
    le4 0 ++
    le8 4

/-- The files section for C4 with a configurable chunk-part self-size and
trailing bytes: one file `"f"`, no symlink, zero hash, flags 0, no install
tags, one chunk part (offset 0, size 4). -/
def c4filesSection (selfSize : Nat) (tail : List Nat) : List Nat :=
  let inner : List Nat :=
    [0] ++ le4 1 ++
    (le4 2 ++ [102, 0]) ++
    le4 0 ++
    List.replicate 20 0 ++
    [0] ++
    le4 0 ++
    le4 1 ++
    (le4 selfSize ++ le4 1 ++ le4 1 ++ le4 1 ++ le4 1 ++ le4 0 ++ le4 4 ++ tail)
  le4 (inner.length + 4) ++ inner

/-- A custom-fields section with `SourceURL = http://e`. -/
def c4customSection : List Nat :=
  let inner : List Nat :=
    [0] ++ le4 1 ++ write_fstring "SourceURL" ++ write_fstring "http://e"
  le4 (inner.length + 4) ++ inner

/-- The well-formed C4 control buffer: chunk-part self-size 28, no tail. -/
def c4good : List Nat :=
  let payload := metaSection ++ c4chunkSection ++ c4filesSection 28 [] ++ c4customSection
  mkEnvelope (sha1 payload) 0 payload

/-- The C4 forward-compat buffer: chunk-part self-size 32 with 4 unknown
tail bytes, which a self-size-honouring reader must skip. -/
def c4bad : List Nat :=
  let payload := metaSection ++ c4chunkSection ++ c4filesSection 32 [0, 0, 0, 0] ++ c4customSection
  mkEnvelope (sha1 payload) 0 payload

/-- The GUID of the C4 chunk. -/
def c4guid : String := "00000001000000010000000100000001"

/-- The manifest the C4 control buffer parses to. -/
def c4manifest : DownloadManifest :=
  { DownloadManifest.default with
    file_manifest_list := [
      { filename := "f"
        file_hash := String.mk (List.replicate 40 '0')
        file_chunk_parts := [{ guid := c4guid, link := none, offset := 0, size := 4 }] }]
    chunk_hash_list := [(c4guid, 17)]
    chunk_sha_list := some [(c4guid, String.mk (List.replicate 40 '0'))]
    data_group_list := [(c4guid, 7)]
    chunk_filesize_list := [(c4guid, 4)]
    custom_fields := some [("SourceURL", "http://e")] }

/-! ### JSON deserialization (`serde_json` + the derive attributes) -/

/-- JSON values, the output of `serde_json`'s (external) text layer. -/
inductive J : Type where
  | null : J
  | b : Bool → J
  | s : String → J
  | arr : List J → J
  | obj : List (String × J) → J
  deriving Repr

/-- Field lookup in a JSON object.  `serde` errors on duplicate struct
fields; the documents used below have distinct keys, so first-match lookup
agrees with the derive-generated visitor. -/
def jGet (fields : List (String × J)) (k : String) : Option J :=
  lookupAL fields k

/-- The monad of one `Deserialize` run: `crash` models a Rust panic inside
a custom deserializer (`blob_to_num` can panic), `ok none` a serde error,
`ok (some a)` success. -/
def JM (α : Type) : Type := PRes (Option α)

instance : Monad JM where
  pure a := .ok (some a)
  bind x f :=
    match x with
    | .crash => .crash
    | .ok none => .ok none
    | .ok (some a) => f a

instance {α : Type} [DecidableEq α] : DecidableEq (JM α) :=
  inferInstanceAs (DecidableEq (PRes (Option α)))

/-- A serde error. -/
def jErr {α : Type} : JM α := .ok none

/-- `deserialize_epic_string`: a JSON string decoded with `blob_to_num`
(panic propagates), any other JSON value is an error. -/
def deserialize_epic_string (v : Option J) : JM Nat :=
  match v with
  | some (.s str) =>
    match blob_to_num str with
    | some n => pure n
    | none => .crash
  | _ => jErr

/-- `deserialize_epic_hash`: `bigblob_to_num`, little-endian bytes resized
up to 20, rendered as lowercase hex (`num-bigint` renders 0 as `[0]`). -/
def natToBytesLE (fuel n : Nat) : List Nat :=
  match fuel with
  | 0 => []
  | f + 1 => if n = 0 then [] else n % 256 :: natToBytesLE f (n / 256)

/-- `BigUint::to_bytes_le`. -/
def bigUintBytesLE (n : Nat) : List Nat :=
  if n = 0 then [0] else natToBytesLE n n

/-- `deserialize_epic_hash` on a JSON value. -/
def deserialize_epic_hash (v : Option J) : JM String :=
  match v with
  | some (.s str) =>
    match bigblob_to_num str with
    | some n =>
      let res := bigUintBytesLE n
      let res := if res.length < 20 then res ++ List.replicate (20 - res.length) 0 else res
      pure (bytesToHex res)
    | none => .crash
  | _ => jErr

/-- `String::from_str` — the key "parser" the source actually invokes in
`deserialize_epic_hashmap`: `str_key.parse()` elaborates at type `String`
(the map collected is a `HashMap<String, u128>`), whose `FromStr`
implementation is infallible, so the `Err` branch and the duplicate-key
length check after it are dead code. -/
def stringFromStr (s : String) : Except Unit String := .ok s

/-- `deserialize_epic_hashmap`, after `HashMap::<String, String>`
deserialization (so the entry list already has distinct keys; `serde_json`
keeps the last value for a duplicated JSON key — modelled by the initial
`insertAL` fold).  Values go through `blob_to_num` (panics propagate);
the declared duplicate-integer-key rejection compares lengths that are
always equal because the keys stay strings. -/
def deserialize_epic_hashmap (entries : List (String × String)) :
    JM (List (String × Nat)) :=
  let strMap := entries.foldl (fun acc kv => insertAL acc kv.1 kv.2) []
  let originalLen := strMap.length
  let rec go : List (String × String) → JM (List (String × Nat))
    | [] => pure []
    | (k, v) :: t =>
      match stringFromStr k with
      | .ok intKey =>
        match blob_to_num v with
        | some n => do
          let rest ← go t
          pure ((intKey, n) :: rest)
        | none => .crash
      | .error _ => jErr
  do
  let pairs ← go strMap
  let data := pairs.foldl (fun acc kv => insertAL acc kv.1 kv.2) []
  if data.length < originalLen then jErr else pure data

/-- A JSON object field as a `HashMap<String, String>`: every value must be
a JSON string. -/
def jStringMap (v : Option J) : JM (List (String × String)) :=
  match v with
  | some (.obj fields) =>
    let rec go : List (String × J) → JM (List (String × String))
      | [] => pure []
      | (k, .s v) :: t => do
        let rest ← go t
        pure ((k, v) :: rest)
      | _ => jErr
    do
    let pairs ← go fields
    pure (pairs.foldl (fun acc kv => insertAL acc kv.1 kv.2) [])
  | _ => jErr

/-- A required JSON string field. -/
def jString (v : Option J) : JM String :=
  match v with
  | some (.s str) => pure str
  | _ => jErr

/-- A required JSON bool field. -/
def jBool (v : Option J) : JM Bool :=
  match v with
  | some (.b bv) => pure bv
  | _ => jErr

/-- An `Option<String>` field: missing or `null` is `None`. -/
def jOptString (v : Option J) : JM (Option String) :=
  match v with
  | none => pure none
  | some .null => pure none
  | some (.s str) => pure (some str)
  | _ => jErr

/-- An `Option<Vec<String>>` field. -/
def jOptStringList (v : Option J) : JM (Option (List String)) :=
  match v with
  | none => pure none
  | some .null => pure none
  | some (.arr items) =>
    let rec go : List J → JM (List String)
      | [] => pure []
      | .s str :: t => do
        let rest ← go t
        pure (str :: rest)
      | _ => jErr
    do
    let l ← go items
    pure (some l)
  | _ => jErr

/-- An `Option<HashMap<String, String>>` field. -/
def jOptStringMap (v : Option J) : JM (Option (List (String × String))) :=
  match v with
  | none => pure none
  | some .null => pure none
  | some o => do
    let msm ← jStringMap (some o)
    pure (some msm)

/-- An epic-hashmap field (`deserialize_with = "deserialize_epic_hashmap"`). -/
def jEpicMap (v : Option J) : JM (List (String × Nat)) := do
  let sm ← jStringMap v
  deserialize_epic_hashmap sm

/-- `FileChunkPart` from JSON (PascalCase fields; `Link` is an
`Option<Url>`, deserialized from a string — modelled as the string). -/
def chunkPartFromJson (v : J) : JM FileChunkPart :=
  match v with
  | .obj fields => do
    let guid ← jString (jGet fields "Guid")
    let link ← jOptString (jGet fields "Link")
    let offset ← deserialize_epic_string (jGet fields "Offset")
    let size ← deserialize_epic_string (jGet fields "Size")
    pure { guid := guid, link := link, offset := offset, size := size }
  | _ => jErr

/-- `FileManifestList` from JSON. -/
def fileFromJson (v : J) : JM FileManifestList :=
  match v with
  | .obj fields => do
    let filename ← jString (jGet fields "Filename")
    let fileHash ← deserialize_epic_hash (jGet fields "FileHash")
    let parts ←
      match jGet fields "FileChunkParts" with
      | some (.arr items) => items.mapM chunkPartFromJson
      | _ => jErr
    pure { filename := filename, file_hash := fileHash, file_chunk_parts := parts }
  | _ => jErr

/-- `serde_json::from_slice::<DownloadManifest>` on an already-lexed JSON
value: the derive-generated deserializer with the `rename` /
`deserialize_with` attributes of the source.  Unknown fields are ignored
(serde default); missing non-`Option` fields are errors. -/
def dm_from_json (v : J) : JM DownloadManifest :=
  match v with
  | .obj fields => do
    let mfv ← deserialize_epic_string (jGet fields "ManifestFileVersion")
    let isFileData ← jBool (jGet fields "bIsFileData")
    let appId ← deserialize_epic_string (jGet fields "AppID")
    let appName ← jString (jGet fields "AppNameString")
    let buildVersion ← jString (jGet fields "BuildVersionString")
    let uninstallPath ← jOptString (jGet fields "UninstallActionPath")
    let uninstallArgs ← jOptString (jGet fields "UninstallActionArgs")
    let launchExe ← jString (jGet fields "LaunchExeString")
    let launchCommand ← jString (jGet fields "LaunchCommand")
    let prereqIds ← jOptStringList (jGet fields "PrereqIds")
    let prereqName ← jString (jGet fields "PrereqName")
    let prereqPath ← jString (jGet fields "PrereqPath")
    let prereqArgs ← jString (jGet fields "PrereqArgs")
    let fml ←
      match jGet fields "FileManifestList" with
      | some (.arr items) => items.mapM fileFromJson
      | _ => jErr
    let chunkHashList ← jEpicMap (jGet fields "ChunkHashList")
    let chunkShaList ← jOptStringMap (jGet fields "ChunkShaList")
    let dataGroupList ← jEpicMap (jGet fields "DataGroupList")
    let chunkFilesizeList ← jEpicMap (jGet fields "ChunkFilesizeList")
    let customFields ← jOptStringMap (jGet fields "CustomFields")
    pure {
      manifest_file_version := mfv
      b_is_file_data := isFileData
      app_id := appId
      app_name_string := appName
      build_version_string := buildVersion
      uninstall_action_path := uninstallPath
      uninstall_action_args := uninstallArgs
      launch_exe_string := launchExe
      launch_command := launchCommand
      prereq_ids := prereqIds
      prereq_name := prereqName
      prereq_path := prereqPath
      prereq_args := prereqArgs
      file_manifest_list := fml
      chunk_hash_list := chunkHashList
      chunk_sha_list := chunkShaList
      data_group_list := dataGroupList
      chunk_filesize_list := chunkFilesizeList
      custom_fields := customFields }
  | _ => jErr

/-! ### Concrete JSON documents -/

/-- The common scalar fields every valid manifest document needs. -/
def jsonScalarFields : List (String × J) :=
  [("ManifestFileVersion", .s "000"),
   ("bIsFileData", .b false),
   ("AppID", .s "000"),
   ("AppNameString", .s ""),
   ("BuildVersionString", .s ""),
   ("LaunchExeString", .s ""),
   ("LaunchCommand", .s ""),
   ("PrereqName", .s ""),
   ("PrereqPath", .s ""),
   ("PrereqArgs", .s "")]

/-- C5's counterexample document: one file with one chunk part whose GUID
`g` is in `ChunkHashList` but *not* in `DataGroupList`, and a base URL in
the custom fields. -/
def c5doc : J :=
  .obj (jsonScalarFields ++
    [("FileManifestList", .arr [
        .obj [("Filename", .s "f"),
              ("FileHash", .s "000"),
              ("FileChunkParts", .arr [
                 .obj [("Guid", .s "g"), ("Offset", .s "000"), ("Size", .s "001")]])]]),
     ("ChunkHashList", .obj [("g", .s "001")]),
     ("DataGroupList", .obj []),
     ("ChunkFilesizeList", .obj []),
     ("CustomFields", .obj [("SourceURL", .s "http://example.com/x")])])

/-- The manifest `c5doc` deserializes to. -/
def c5manifest : DownloadManifest :=
  { DownloadManifest.default with
    file_manifest_list := [
      { filename := "f"
        file_hash := String.mk (List.replicate 40 '0')
        file_chunk_parts := [{ guid := "g", link := none, offset := 0, size := 1 }] }]
    chunk_hash_list := [("g", 1)]
    custom_fields := some [("SourceURL", "http://example.com/x")] }

/-- C9's document: the `ChunkHashList` carries the two distinct string keys
`"0"` and `"00"`, which both parse to the integer 0. -/
def c9doc : J :=
  .obj (jsonScalarFields ++
    [("FileManifestList", .arr []),
     ("ChunkHashList", .obj [("0", .s "001"), ("00", .s "002")]),
     ("DataGroupList", .obj []),
     ("ChunkFilesizeList", .obj [])])

/-- The manifest `c9doc` deserializes to (both colliding keys kept). -/
def c9manifest : DownloadManifest :=
  { DownloadManifest.default with
    chunk_hash_list := [("0", 1), ("00", 2)]
    custom_fields := none }

/-! ### Definitions written from the claims (for comparison with the code) -/

/-- C6's reading of `blob_to_num`, written from the claim's words: every
3-character group parsed as a decimal number in `0..=255` lands at byte
position `i / 3`; groups that fail to parse contribute 0. -/
def blobToNumClaimed (s : String) : Nat :=
  let bs := utf8Bytes s
  let rec go : List Nat → Nat → Nat
    | b0 :: b1 :: b2 :: rest, idx =>
      (match parseDecimal [b0, b1, b2] with
        | some n => if n ≤ 255 then n * 2 ^ (8 * idx) else 0
        | none => 0) + go rest (idx + 1)
    | _, _ => 0
  go bs 0

/-- The URL C3's claim predicts, written from the claim's words: base,
chunk directory, two-digit zero-padded decimal group, 16-digit uppercase
zero-padded hex hash, uppercase GUID. -/
def claimedUrl (base chunkDir : String) (d h : Nat) (g : String) : String :=
  base ++ "/" ++ chunkDir ++ "/" ++ padZero 2 (fmtDec d) ++ "/" ++
    padZero 16 (fmtHexU h) ++ "_" ++ asciiUpper g ++ ".chunk"

/-- A one-chunk manifest with a `SourceURL`, the generic configuration of
C3's universal statement. -/
def c3manifest (base guid : String) (h d lvl : Nat) : DownloadManifest :=
  { DownloadManifest.default with
    manifest_file_version := lvl
    chunk_hash_list := [(guid, h)]
    data_group_list := [(guid, d)]
    custom_fields := some [("SourceURL", base)] }

/-- C7's counterexample buffer: length `-2^30` followed by `2^31` bytes —
the claim's reading would consume all of them, the doubled length
overflows `i32`. -/
def c7bad : List Nat :=
  [0, 0, 0, 192] ++ List.replicate (2 ^ 31) 97

/-- A manifest with one file and no `SourceURL`/`BaseUrl` custom field,
exercising C8. -/
def c8manifest : DownloadManifest :=
  { DownloadManifest.default with
    file_manifest_list := [
      { filename := "f"
        file_hash := ""
        file_chunk_parts := [{ guid := "g", link := none, offset := 0, size := 1 }] }] }

/-! ## Helper lemmas -/

theorem keysAL_nil {α : Type} : keysAL ([] : List (String × α)) = [] := rfl

theorem keysAL_cons {α : Type} (a : String) (b : α) (t : List (String × α)) :
    keysAL ((a, b) :: t) = a :: keysAL t := rfl

theorem lookupAL_insertAL_self {α : Type} (l : List (String × α)) (k : String) (v : α) :
    lookupAL (insertAL l k v) k = some v := by
  induction l with
  | nil => simp [insertAL, lookupAL]
  | cons hd t ih =>
    obtain ⟨a, b⟩ := hd
    by_cases hak : a = k
    · simp [insertAL, lookupAL, hak]
    · simp [insertAL, lookupAL, hak, ih]

theorem lookupAL_insertAL_ne {α : Type} (l : List (String × α)) (k : String) (v : α)
    (k' : String) (h : k' ≠ k) : lookupAL (insertAL l k v) k' = lookupAL l k' := by
  induction l with
  | nil =>
    have hne : ¬(k = k') := fun he => h he.symm
    simp [insertAL, lookupAL, hne]
  | cons hd t ih =>
    obtain ⟨a, b⟩ := hd
    by_cases hak : a = k
    · subst hak
      have hne : ¬(a = k') := fun he => h he.symm
      simp [insertAL, lookupAL, hne]
    · simp only [insertAL, if_neg hak, lookupAL]
      by_cases hak' : a = k'
      · simp [hak']
      · simp [hak', ih]

theorem mem_keysAL_insertAL {α : Type} (l : List (String × α)) (k : String) (v : α)
    (g : String) : g ∈ keysAL (insertAL l k v) ↔ g = k ∨ g ∈ keysAL l := by
  induction l with
  | nil => simp [insertAL, keysAL]
  | cons hd t ih =>
    obtain ⟨a, b⟩ := hd
    by_cases hak : a = k
    · subst hak
      simp only [insertAL, if_pos, keysAL_cons, List.mem_cons]
      tauto
    · simp only [insertAL, if_neg hak, keysAL_cons, List.mem_cons] at ih ⊢
      tauto

theorem lookupAL_isSome_iff {α : Type} (l : List (String × α)) (g : String) :
    (∃ x, lookupAL l g = some x) ↔ g ∈ keysAL l := by
  induction l with
  | nil => simp [lookupAL, keysAL]
  | cons hd t ih =>
    obtain ⟨a, b⟩ := hd
    by_cases hag : a = g
    · simp [lookupAL, keysAL_cons, hag]
    · simp only [lookupAL, if_neg hag, keysAL_cons, List.mem_cons]
      rw [ih]
      constructor
      · exact Or.inr
      · rintro (hg | hg)
        · exact absurd hg.symm hag
        · exact hg

theorem lookupAL_none_of_not_mem {α : Type} (l : List (String × α)) (g : String)
    (h : g ∉ keysAL l) : lookupAL l g = none := by
  rcases hl : lookupAL l g with _ | x
  · rfl
  · exact absurd ((lookupAL_isSome_iff l g).mp ⟨x, hl⟩) h

theorem mem_keysAL_linksFold (groups : List (String × Nat)) (url cd : String) :
    ∀ (l : List (String × Nat)) (acc : List (String × Url)) (g : String),
      g ∈ keysAL (linksFold groups url cd l acc) ↔
        g ∈ keysAL acc ∨ (g ∈ keysAL l ∧ g ∈ keysAL groups) := by
  intro l
  induction l with
  | nil =>
    intro acc g
    simp [linksFold, keysAL]
  | cons hd t ih =>
    intro acc g
    obtain ⟨a, hsh⟩ := hd
    rcases hga : lookupAL groups a with _ | gn
    · have hna : a ∉ keysAL groups := by
        intro hmem
        rcases (lookupAL_isSome_iff groups a).mpr hmem with ⟨x, hx⟩
        rw [hga] at hx
        cases hx
      simp only [linksFold, hga, keysAL_cons, List.mem_cons]
      rw [ih]
      constructor
      · rintro (h | ⟨h1, h2⟩)
        · exact Or.inl h
        · exact Or.inr ⟨Or.inr h1, h2⟩
      · rintro (h | ⟨h1 | h1, h2⟩)
        · exact Or.inl h
        · subst h1
          exact absurd h2 hna
        · exact Or.inr ⟨h1, h2⟩
    · have hma : a ∈ keysAL groups := (lookupAL_isSome_iff groups a).mp ⟨gn, hga⟩
      simp only [linksFold, hga, keysAL_cons, List.mem_cons]
      rw [ih, mem_keysAL_insertAL]
      constructor
      · rintro ((h | h) | ⟨h1, h2⟩)
        · subst h
          exact Or.inr ⟨Or.inl rfl, hma⟩
        · exact Or.inl h
        · exact Or.inr ⟨Or.inr h1, h2⟩
      · rintro (h | ⟨h1 | h1, h2⟩)
        · exact Or.inl (Or.inr h)
        · exact Or.inl (Or.inl h1)
        · exact Or.inr ⟨h1, h2⟩

theorem filesFold_lookup_eq (links : List (String × Url)) :
    ∀ (l : List FileManifestList) (acc : List (String × FileManifestList))
      (name : String) (e : FileManifestList),
      lookupAL (filesFold links l acc) name = some e →
      (∃ f, f ∈ l ∧ f.filename = name ∧ e = projectFile links f) ∨
        lookupAL acc name = some e := by
  intro l
  induction l with
  | nil =>
    intro acc name e h
    exact Or.inr h
  | cons f t ih =>
    intro acc name e h
    simp only [filesFold] at h
    rcases ih _ _ _ h with ⟨f', hf', hn, he⟩ | hacc
    · exact Or.inl ⟨f', List.mem_cons_of_mem _ hf', hn, he⟩
    · by_cases hname : name = f.filename
      · subst hname
        rw [lookupAL_insertAL_self] at hacc
        exact Or.inl ⟨f, List.mem_cons_self f t, rfl, (Option.some.inj hacc).symm⟩
      · rw [lookupAL_insertAL_ne _ _ _ _ hname] at hacc
        exact Or.inr hacc

theorem mem_keysAL_filesFold (links : List (String × Url)) :
    ∀ (l : List FileManifestList) (acc : List (String × FileManifestList)) (name : String),
      (name ∈ keysAL acc ∨ name ∈ l.map FileManifestList.filename) →
      name ∈ keysAL (filesFold links l acc) := by
  intro l
  induction l with
  | nil =>
    intro acc name h
    simpa [filesFold] using h
  | cons f t ih =>
    intro acc name h
    simp only [filesFold]
    apply ih
    rcases h with h | h
    · exact Or.inl ((mem_keysAL_insertAL _ _ _ _).mpr (Or.inr h))
    · simp only [List.map_cons, List.mem_cons] at h
      rcases h with h | h
      · exact Or.inl ((mem_keysAL_insertAL _ _ _ _).mpr (Or.inl h))
      · exact Or.inr h

theorem read_le_ok (buf : List Nat) (pos : Nat) (h : pos + 4 ≤ buf.length) :
    read_le buf pos = .ok (leVal ((buf.drop pos).take 4), pos + 4) := by
  simp [read_le, sliceP, h, PRes.pbind, Nat.le_add_right, Nat.add_sub_cancel_left]

theorem read_u8_ok (buf : List Nat) (pos : Nat) (h : pos < buf.length) :
    read_u8 buf pos = .ok (buf.getD pos 0, pos + 1) := by
  simp [read_u8, h]

theorem sliceP_ok (buf : List Nat) (start stop : Nat) (h1 : start ≤ stop)
    (h2 : stop ≤ buf.length) :
    sliceP buf start stop = .ok ((buf.drop start).take (stop - start)) := by
  simp [sliceP, h1, h2]

theorem leVal_le4 (v : Nat) (h : v < 2 ^ 32) : leVal (le4 v) = v := by
  simp only [le4, leVal]
  omega

theorem take4_le4_append (v : Nat) (r : List Nat) : (le4 v ++ r).take 4 = le4 v := by
  simp [le4]

theorem drop4_le4_append (v : Nat) (r : List Nat) : (le4 v ++ r).drop 4 = r := by
  simp [le4]

theorem hexDigitsRev_length_le : ∀ fuel n k : Nat, n < 16 ^ k →
    (hexDigitsRev fuel n).length ≤ k := by
  intro fuel
  induction fuel with
  | zero =>
    intro n k _
    simp [hexDigitsRev]
  | succ f ih =>
    intro n k h
    by_cases hn : n = 0
    · simp [hexDigitsRev, hn]
    · simp only [hexDigitsRev, if_neg hn, List.length_cons]
      have hk : k ≠ 0 := by
        rintro rfl
        simp at h
        omega
      have hp : 16 ^ k = 16 ^ (k - 1) * 16 := by
        conv_lhs => rw [← Nat.sub_add_cancel (Nat.one_le_iff_ne_zero.mpr hk)]
        rw [pow_succ]
      have hlt : n / 16 < 16 ^ (k - 1) := by
        apply Nat.div_lt_of_lt_mul
        omega
      have := ih (n / 16) (k - 1) hlt
      omega

theorem fmtHexU_length_le (n : Nat) (h : n < 2 ^ 64) : (fmtHexU n).length ≤ 16 := by
  by_cases hn : n = 0
  · subst hn
    simp only [fmtHexU, if_pos rfl]
    decide
  · have h16 : n < 16 ^ 16 := by
      have : (16 : Nat) ^ 16 = 2 ^ 64 := by norm_num
      omega
    have hlen := hexDigitsRev_length_le n n 16 h16
    simp only [fmtHexU, if_neg hn]
    show ((hexDigitsRev n n).reverse.map hexCharU).length ≤ 16
    simpa using hlen

theorem padZero_length (w : Nat) (s : String) (h : s.length ≤ w) :
    (padZero w s).length = w := by
  show (List.replicate (w - s.length) '0' ++ s.data).length = w
  have : s.length = s.data.length := rfl
  simp [List.length_append, List.length_replicate]
  omega

theorem read_fstring_neg_crash (buf : List Nat) (pos : Nat) (L : Int)
    (hr : read_le_signed buf pos = .ok (L, pos + 4)) (hneg : L < 0)
    (hslice : sliceP buf
      (w64sub (w64add (pos + 4) (toUsize (wrapI32 (L * -2)))) (toUsize (wrapI32 (L * -2))))
      (w64sub (w64add (pos + 4) (toUsize (wrapI32 (L * -2)))) 2) = .crash) :
    read_fstring buf pos = .crash := by
  rw [read_fstring, hr]
  simp only [PRes.pbind]
  rw [if_pos hneg]
  rw [hslice]

theorem read_fstring_utf8_branch (L : Nat) (payload rest : List Nat) (h1 : 0 < L)
    (h2 : L < 2 ^ 31) (h3 : payload.length = L) :
    read_fstring (le4 L ++ payload ++ rest) 0 =
      .ok (utf8DecodeStr (payload.take (L - 1)), 4 + L) := by
  have hlen : (le4 L ++ payload ++ rest).length = 4 + L + rest.length := by
    simp [le4, h3]
    omega
  have hr : read_le_signed (le4 L ++ payload ++ rest) 0 = .ok ((L : Int), 0 + 4) := by
    rw [read_le_signed, sliceP_ok _ 0 4 (by omega) (by omega)]
    rw [List.drop_zero, List.append_assoc, take4_le4_append]
    simp only [PRes.pbind]
    rw [leVal_le4 L (by omega), toSigned, if_pos (by norm_num; omega)]
  rw [read_fstring, hr]
  simp only [PRes.pbind]
  rw [if_neg (by omega), if_neg (by omega)]
  rw [show (L : Int).toNat = L from Int.toNat_ofNat L]
  rw [show w64add (0 + 4) L = 4 + L from by unfold w64add; omega]
  rw [show w64sub (4 + L) L = 4 from by unfold w64sub; omega]
  rw [show w64sub (4 + L) 1 = 3 + L from by unfold w64sub; omega]
  rw [sliceP_ok _ 4 (3 + L) (by omega) (by omega)]
  rw [List.append_assoc, drop4_le4_append]
  rw [show 3 + L - 4 = L - 1 from by omega]
  rw [List.take_append_of_le_length (by omega)]

theorem read_fstring_utf16_branch (L : Nat) (payload rest : List Nat) (h1 : 0 < L)
    (h2 : L < 2 ^ 30) (h3 : payload.length = 2 * L) :
    read_fstring (le4 (2 ^ 32 - L) ++ payload ++ rest) 0 =
      .ok (some (String.mk (utf16Lossy (toU16LE (payload.take (2 * L - 2))))), 4 + 2 * L) := by
  have hlen : (le4 (2 ^ 32 - L) ++ payload ++ rest).length = 4 + 2 * L + rest.length := by
    simp [le4, h3]
    omega
  have hr : read_le_signed (le4 (2 ^ 32 - L) ++ payload ++ rest) 0 =
      .ok (-(L : Int), 0 + 4) := by
    rw [read_le_signed, sliceP_ok _ 0 4 (by omega) (by omega)]
    rw [List.drop_zero, List.append_assoc, take4_le4_append]
    simp only [PRes.pbind]
    rw [leVal_le4 _ (by omega), toSigned, if_neg (by norm_num; omega)]
    congr 2
    push_cast
    omega
  rw [read_fstring, hr]
  simp only [PRes.pbind]
  rw [if_pos (by omega : -(L : Int) < 0)]
  rw [show wrapI32 (-(L : Int) * -2) = ((2 * L : Nat) : Int) from by
    unfold wrapI32
    push_cast
    omega]
  rw [show toUsize ((2 * L : Nat) : Int) = 2 * L from by
    unfold toUsize
    omega]
  rw [show w64add (0 + 4) (2 * L) = 4 + 2 * L from by unfold w64add; omega]
  rw [show w64sub (4 + 2 * L) (2 * L) = 4 from by unfold w64sub; omega]
  rw [show w64sub (4 + 2 * L) 2 = 2 + 2 * L from by unfold w64sub; omega]
  rw [sliceP_ok _ 4 (2 + 2 * L) (by omega) (by omega)]
  rw [List.append_assoc, drop4_le4_append]
  rw [show 2 + 2 * L - 4 = 2 * L - 2 from by omega]
  rw [List.take_append_of_le_length (by omega)]

theorem read_fstring_zero_branch (rest : List Nat) :
    read_fstring (le4 0 ++ rest) 0 = .ok (none, 4) := by
  have hr : read_le_signed (le4 0 ++ rest) 0 = .ok ((0 : Int), 0 + 4) := by
    rw [read_le_signed, sliceP_ok _ 0 4 (by omega) (by simp [le4])]
    rw [List.drop_zero, take4_le4_append]
    simp only [PRes.pbind]
    rw [leVal_le4 0 (by norm_num)]
    norm_num [toSigned]
  rw [read_fstring, hr]
  simp only [PRes.pbind]
  norm_num

theorem utf8EncodeChar_ascii (n : Nat) (h : n < 128) : utf8EncodeChar n = [n] := by
  simp [utf8EncodeChar, h]

theorem utf8EncodeChar_ne_nil (n : Nat) : utf8EncodeChar n ≠ [] := by
  unfold utf8EncodeChar
  split_ifs <;> simp

theorem utf8EncodeChar_head_boundary (n b : Nat)
    (h : (utf8EncodeChar n).head? = some b) : utf8Boundary b = true := by
  unfold utf8EncodeChar at h
  split_ifs at h <;> simp at h <;> simp [utf8Boundary] <;> omega

theorem utf8Bytes_head_boundary (s : String) :
    (utf8Bytes s).head?.all utf8Boundary = true := by
  unfold utf8Bytes
  cases hd : s.data with
  | nil => simp
  | cons c t =>
    simp only [List.flatMap_cons]
    cases he : utf8EncodeChar c.toNat with
    | nil => exact absurd he (utf8EncodeChar_ne_nil _)
    | cons b bt =>
      simp only [List.cons_append, List.head?_cons, Option.all_some]
      exact utf8EncodeChar_head_boundary c.toNat b (by rw [he]; rfl)

theorem blob_to_num_skip_failed_group (g s : String) (hlen : g.data.length = 3)
    (hascii : ∀ c ∈ g.data, c.toNat < 128)
    (hfail : parseDecimal (g.data.map Char.toNat) = none) :
    blob_to_num (g ++ s) = blob_to_num s := by
  obtain ⟨c0, c1, c2, hg⟩ := List.length_eq_three.mp hlen
  have h0 : c0.toNat < 128 := hascii c0 (by rw [hg]; simp)
  have h1 : c1.toNat < 128 := hascii c1 (by rw [hg]; simp)
  have h2 : c2.toNat < 128 := hascii c2 (by rw [hg]; simp)
  have hbytes : utf8Bytes (g ++ s) = c0.toNat :: c1.toNat :: c2.toNat :: utf8Bytes s := by
    show (g ++ s).data.flatMap (fun c => utf8EncodeChar c.toNat) = _
    rw [show (g ++ s).data = g.data ++ s.data from rfl, hg]
    simp [utf8EncodeChar_ascii _ h0, utf8EncodeChar_ascii _ h1, utf8EncodeChar_ascii _ h2]
    rfl
  rw [hg] at hfail
  simp only [List.map_cons, List.map_nil] at hfail
  unfold blob_to_num
  rw [hbytes]
  conv_lhs => rw [blobCore]
  rw [if_pos ⟨by simp [utf8Boundary]; omega, by rw [utf8Bytes_head_boundary]⟩, hfail]

/-! ## Claims -/

set_option maxRecDepth 100000 in
/-- C1: the claim says `parse(to_vec(M))` succeeds and round-trips modulo
custom-field order and `DownloadedManifestHash`.  The code refutes it: for
the minimal manifest `m0` the writer's `files.resize(len, 0)` truncates the
files section and the absent-custom-fields count is written as one byte, so
parsing the writer's own output runs out of bounds (a panic), far from
returning `m0`.  (`to_vec` itself succeeds — the crash is in the read-back.)
Compression is instantiated with the identity pair, which satisfies the
zlib round-trip contract; the parsed payload is identical to what real
zlib would hand back. -/
theorem c1_parse_of_to_vec_crashes :
    DownloadManifest.to_vec idCompress m0 ≠ .crash ∧
    (DownloadManifest.to_vec idCompress m0).pbind
      (DownloadManifest.parse idDecomp noJson) = .crash := by
  exact ⟨by decide, by decide⟩

set_option maxRecDepth 100000 in
/-- C2 (counterexample): a well-formed *uncompressed* binary manifest whose
envelope digest is 20 zero bytes — not the SHA-1 of its payload — still
parses successfully, so "after parse the 20-byte SHA-1 recorded in the
envelope header equals the SHA-1 of the decompressed payload, and any
mismatch makes parse return absent" is false as stated: the digest is only
checked on the zlib path. -/
theorem c2_uncompressed_digest_unchecked :
    DownloadManifest.from_vec idDecomp c2bytes = .ok (some c2manifest) ∧
    (c2bytes.drop 16).take 20 = List.replicate 20 0 ∧
    sha1 (c2bytes.drop 41) ≠ List.replicate 20 0 ∧
    DownloadManifest.parse idDecomp noJson c2bytes ≠ .ok none ∧
    DownloadManifest.parse idDecomp noJson c2bytes ≠ .crash := by
  exact ⟨by decide, by decide, by decide, by decide, by decide⟩

/-- C2 (amended): for a buffer accepted as binary whose stored-as flag
marks it zlib-wrapped, if decompression succeeds and the SHA-1 of the
decompressed payload differs from the envelope digest, `from_vec` returns
absent.  (Uncompressed buffers are not integrity-checked, and a
decompression *error* is `unwrap`ed — a panic — rather than absent.) -/
theorem c2_compressed_digest_mismatch_absent
    (decomp : List Nat → Except Unit (List Nat)) (buffer payload : List Nat)
    (hlen : 41 ≤ buffer.length)
    (hmagic : leVal (buffer.take 4) = 1153351692)
    (hflag : buffer.getD 36 0 ≠ 0)
    (hdec : decomp (buffer.drop 41) = .ok payload)
    (hsha : do_vecs_match ((buffer.drop 16).take 20) (sha1 payload) = false) :
    DownloadManifest.from_vec decomp buffer = .ok none := by
  have r0 := read_le_ok buffer 0 (by omega)
  have r4 := read_le_ok buffer 4 (by omega)
  have r8 := read_le_ok buffer 8 (by omega)
  have r12 := read_le_ok buffer 12 (by omega)
  have s16 := sliceP_ok buffer 16 (16 + 20) (by omega) (by omega)
  have r36 := read_u8_ok buffer 36 (by omega)
  have r37 := read_le_ok buffer 37 (by omega)
  simp only [List.drop_zero] at r0
  unfold DownloadManifest.from_vec
  rw [r0, hmagic]
  norm_num
  rw [r4]
  norm_num
  rw [r8]
  norm_num
  rw [r12]
  norm_num
  rw [s16]
  norm_num
  rw [r36]
  norm_num
  rw [r37]
  norm_num
  have hflag' : ¬(buffer[36]?.getD 0 = 0) := by simpa [List.getD] using hflag
  rw [if_neg hflag', hdec]
  norm_num
  rw [hsha]
  norm_num

set_option maxRecDepth 100000 in
/-- C2 witness: a concrete compressed envelope with a zero digest and a
decompressor returning `[1, 2, 3]` is rejected as absent. -/
theorem c2_compressed_digest_mismatch_absent_witness :
    DownloadManifest.from_vec (fun _ => .ok [1, 2, 3])
      (mkEnvelope (List.replicate 20 0) 1 []) = .ok none :=
  c2_compressed_digest_mismatch_absent (fun _ => .ok [1, 2, 3])
    (mkEnvelope (List.replicate 20 0) 1 []) [1, 2, 3]
    (by decide) (by decide) (by decide) rfl (by decide)

/-- C3: with a `SourceURL` base, one chunk GUID `G` with (64-bit) rolling
hash `H` and data group `D`, the derived URL map is exactly
`G ↦ base/chunkDir/DD/HHHHHHHHHHHHHHHH_G.chunk` with the two-digit
zero-padded decimal group, the 16-digit zero-padded uppercase hex hash and
the uppercase GUID; the feature levels 2, 3, 5, 6, 14, 15 select `Chunks`,
`ChunksV2`, `ChunksV2`, `ChunksV3`, `ChunksV3`, `ChunksV4`; and the
concrete scenario of the claim yields exactly the claimed URL. -/
theorem c3_download_url_format (base guid : String) (h d lvl : Nat) (hh : h < 2 ^ 64) :
    DownloadManifest.download_links (c3manifest base guid h d lvl) =
      some [(guid, claimedUrl base (DownloadManifest.chunk_dir lvl) d h guid)] ∧
    claimedUrl base (DownloadManifest.chunk_dir lvl) d h guid =
      base ++ "/" ++ DownloadManifest.chunk_dir lvl ++ "/" ++ padZero 2 (fmtDec d) ++ "/" ++
        padZero 16 (fmtHexU h) ++ "_" ++ asciiUpper guid ++ ".chunk" ∧
    (padZero 16 (fmtHexU h)).length = 16 ∧
    (DownloadManifest.chunk_dir 2 = "Chunks" ∧ DownloadManifest.chunk_dir 3 = "ChunksV2" ∧
     DownloadManifest.chunk_dir 5 = "ChunksV2" ∧ DownloadManifest.chunk_dir 6 = "ChunksV3" ∧
     DownloadManifest.chunk_dir 14 = "ChunksV3" ∧ DownloadManifest.chunk_dir 15 = "ChunksV4") ∧
    DownloadManifest.download_links (c3manifest "https://cdn.example/build"
        "aabbccdd00112233445566778899aabb" 81985529216486895 7 18) =
      some [("aabbccdd00112233445566778899aabb",
        "https://cdn.example/build/ChunksV4/07/0123456789ABCDEF_AABBCCDD00112233445566778899AABB.chunk")] := by
  refine ⟨?_, rfl, padZero_length 16 _ (fmtHexU_length_le h hh), by decide, by decide⟩
  simp [DownloadManifest.download_links, DownloadManifest.custom_field, c3manifest,
    DownloadManifest.default, lookupAL, linksFold, insertAL, chunkUrl, claimedUrl,
    fmtDec02, fmtHex016]

/-- C3 witness: the universal part applied at the claim's concrete
scenario. -/
theorem c3_download_url_format_witness :
    DownloadManifest.download_links (c3manifest "https://cdn.example/build"
        "aabbccdd00112233445566778899aabb" 81985529216486895 7 18) =
      some [("aabbccdd00112233445566778899aabb",
        claimedUrl "https://cdn.example/build" (DownloadManifest.chunk_dir 18) 7
          81985529216486895 "aabbccdd00112233445566778899aabb")] :=
  (c3_download_url_format "https://cdn.example/build" "aabbccdd00112233445566778899aabb"
    81985529216486895 7 18 (by decide)).1

set_option maxRecDepth 1000000 in
/-- C4: the claim says the chunk-part reader honours the declared u32
self-size, so a part carrying self-size 32 (4 unknown tail bytes) still
parses and `files()` stays correct.  The code refutes it: the skip is
computed as `position - total - chunk_size` (backwards), which underflows
for self-size 32 — a debug build aborts, a release build rewinds the cursor
4 bytes and the rest of the buffer is misparsed (here: out-of-bounds, a
panic).  The control buffer with self-size 28 parses fine and its `files()`
view is correct. -/
theorem c4_chunk_part_self_size_ignored :
    DownloadManifest.from_vec idDecomp c4good = .ok (some c4manifest) ∧
    DownloadManifest.files c4manifest = [("f",
      { filename := "f"
        file_hash := String.mk (List.replicate 40 '0')
        file_chunk_parts := [{
          guid := c4guid
          link := some "http://e/Chunks/07/0000000000000011_00000001000000010000000100000001.chunk"
          offset := 0
          size := 4 }] })] ∧
    DownloadManifest.from_vec idDecomp c4bad = .crash := by
  exact ⟨by decide, by decide, by decide⟩

set_option maxRecDepth 1000000 in
/-- C5 (counterexample): a manifest parsed from JSON can carry a chunk part
whose GUID is a key of the chunk hash map but absent from the data group
map; `download_links` then skips it, so with a base URL set the GUID is
*not* in the URL map and the claimed equivalence "P.guid ∈ hash-map keys ⇔
P.guid ∈ URL map" fails. -/
theorem c5_hash_key_missing_from_url_map :
    dm_from_json c5doc = .ok (some c5manifest) ∧
    c5manifest.custom_field "SourceURL" = some "http://example.com/x" ∧
    (c5manifest.file_manifest_list.map fun f => f.file_chunk_parts.map fun p => p.guid) =
      [["g"]] ∧
    "g" ∈ keysAL c5manifest.chunk_hash_list ∧
    c5manifest.download_links = some [] ∧
    "g" ∉ keysAL ([] : List (String × Url)) := by
  exact ⟨by decide, by decide, by decide, by decide, by decide, by decide⟩

/-- C5 (amended): with a base URL set, a GUID is in the derived URL map iff
it is a key of *both* the chunk hash map and the data group map; and every
entry of `files()` is the projection of a source file record in which
exactly the chunk parts whose GUID has a URL survive (with that URL
attached) — parts with an unknown GUID are dropped silently, never a
panic. -/
theorem c5_url_map_keys_and_file_parts (m : DownloadManifest)
    (links : List (String × Url)) (h : m.download_links = some links) :
    (∀ g, g ∈ keysAL links ↔
      g ∈ keysAL m.chunk_hash_list ∧ g ∈ keysAL m.data_group_list) ∧
    (∀ name e, lookupAL m.files name = some e →
      ∃ f, f ∈ m.file_manifest_list ∧ f.filename = name ∧ e = projectFile links f) := by
  have hlinks : ∃ url, links = linksFold m.data_group_list url
      (DownloadManifest.chunk_dir m.manifest_file_version) m.chunk_hash_list [] := by
    unfold DownloadManifest.download_links at h
    rcases hs : m.custom_field "SourceURL" with _ | uri
    · rcases hb : m.custom_field "BaseUrl" with _ | urls
      · rw [hs, hb] at h
        simp at h
      · rw [hs, hb] at h
        dsimp only [] at h
        rcases hh : (urls.splitOn ",").head? with _ | uri0
        · rw [hh] at h
          simp at h
        · rw [hh] at h
          simp at h
          exact ⟨uri0, h.symm⟩
    · rw [hs] at h
      simp at h
      exact ⟨uri, h.symm⟩
  obtain ⟨url, hurl⟩ := hlinks
  constructor
  · intro g
    rw [hurl, mem_keysAL_linksFold]
    simp [keysAL]
  · intro name e he
    unfold DownloadManifest.files at he
    rw [h] at he
    simp only [Option.getD_some] at he
    rcases filesFold_lookup_eq links m.file_manifest_list [] name e he with hc | hacc
    · exact hc
    · simp [lookupAL] at hacc

/-- C5 witness: the amended key equivalence applied to the JSON-parsed
counterexample manifest. -/
theorem c5_url_map_keys_and_file_parts_witness :
    "g" ∈ keysAL ([] : List (String × Url)) ↔
      "g" ∈ keysAL c5manifest.chunk_hash_list ∧
        "g" ∈ keysAL c5manifest.data_group_list :=
  (c5_url_map_keys_and_file_parts c5manifest [] (by decide)).1 "g"

/-- C6 (counterexample): the claim places each parsed group at byte
position `i / 3` with failed groups contributing 0, which predicts
`blob_to_num "aaa001" = 256`; the code does not advance the shift on a
failed group, so the `001` group lands at byte 0 and the result is 1. -/
theorem c6_failed_group_does_not_hold_position :
    blobToNumClaimed "aaa001" = 256 ∧ blob_to_num "aaa001" = some 1 := by
  exact ⟨by decide, by decide⟩

/-- C6 (amended): a 3-character group that fails to parse is skipped
without advancing the byte position (prepending it leaves the value
unchanged), and the claim's concrete identities hold:
`blob_to_num "165045004000" = 273829` and trailing zero-triplet
stability. -/
theorem c6_blob_to_num_laws :
    (∀ g s : String, g.data.length = 3 → (∀ c ∈ g.data, c.toNat < 128) →
      parseDecimal (g.data.map Char.toNat) = none →
      blob_to_num (g ++ s) = blob_to_num s) ∧
    blob_to_num "165045004000" = some 273829 ∧
    blob_to_num "001" = some 1 ∧
    blob_to_num "001000" = some 1 :=
  ⟨blob_to_num_skip_failed_group, by decide, by decide, by decide⟩

/-- C6 witness: the skip law at `"aaa"` prepended to `"001"`. -/
theorem c6_blob_to_num_laws_witness :
    blob_to_num ("aaa" ++ "001") = blob_to_num "001" :=
  c6_blob_to_num_laws.1 "aaa" "001" (by decide) (by decide) (by decide)

set_option maxRecDepth 1000000 in
/-- C7 (counterexample): the claim's negative branch ("for L < 0 consumes
(−L)·2 bytes and returns them decoded as UTF-16LE") fails at `L = -2^30`
with a buffer that does hold the claimed `2^31` bytes: `length *= -2`
overflows `i32` (a debug build aborts; in release the wrapped length is
sign-extended to a huge usize and the slice is out of bounds — a panic),
so the reader crashes instead of returning the decoded string. -/
theorem c7_length_overflow_crashes : read_fstring c7bad 0 = .crash := by
  have hlen : c7bad.length = 2147483652 := by
    rw [c7bad, List.length_append, List.length_replicate]
    norm_num
  have htake : c7bad.take 4 = [0, 0, 0, 192] := by
    rw [c7bad, List.take_append_of_le_length (by norm_num)]
    rfl
  have hr : read_le_signed c7bad 0 = .ok (-1073741824, 0 + 4) := by
    rw [read_le_signed, sliceP_ok c7bad 0 4 (by omega) (by omega)]
    rw [List.drop_zero, htake]
    rfl
  apply read_fstring_neg_crash c7bad 0 (-1073741824) hr (by decide)
  rw [show toUsize (wrapI32 ((-1073741824 : Int) * -2)) = 18446744071562067968 from by decide]
  rw [show w64add (0 + 4) 18446744071562067968 = 18446744071562067972 from by decide]
  rw [show w64sub 18446744071562067972 18446744071562067968 = 4 from by decide]
  rw [show w64sub 18446744071562067972 2 = 18446744071562067970 from by decide]
  rw [sliceP, if_neg (by omega)]

/-- C7 (amended): `read_fstring` reads an `i32` length `L`; for
`0 < L < 2^31` it consumes `L` bytes and UTF-8-decodes the first `L − 1`
(`none` on invalid UTF-8, cursor advanced either way); for
`-2^30 < L < 0` it consumes `(−L)·2` bytes and UTF-16LE-decodes all but
the trailing pair; for `L = 0` it yields absent; and the two concrete
buffers of the claim behave exactly as stated (`|L| ≥ 2^30` negative
lengths instead overflow, see the counterexample). -/
theorem c7_read_fstring_branches :
    (∀ (L : Nat) (payload rest : List Nat), 0 < L → L < 2 ^ 31 → payload.length = L →
      read_fstring (le4 L ++ payload ++ rest) 0 =
        .ok (utf8DecodeStr (payload.take (L - 1)), 4 + L)) ∧
    (∀ (L : Nat) (payload rest : List Nat), 0 < L → L < 2 ^ 30 → payload.length = 2 * L →
      read_fstring (le4 (2 ^ 32 - L) ++ payload ++ rest) 0 =
        .ok (some (String.mk (utf16Lossy (toU16LE (payload.take (2 * L - 2))))), 4 + 2 * L)) ∧
    (∀ rest, read_fstring (le4 0 ++ rest) 0 = .ok (none, 4)) ∧
    read_fstring [5, 0, 0, 0, 97, 98, 99, 100, 0] 0 = .ok (some "abcd", 9) ∧
    read_fstring [251, 255, 255, 255, 97, 0, 98, 0, 99, 0, 100, 0, 0, 0] 0 =
      .ok (some "abcd", 14) :=
  ⟨read_fstring_utf8_branch, read_fstring_utf16_branch, read_fstring_zero_branch,
   by decide, by decide⟩

/-- C7 witness: both decode branches applied to the claim's concrete
buffers. -/
theorem c7_read_fstring_branches_witness :
    read_fstring (le4 5 ++ [97, 98, 99, 100, 0] ++ []) 0 =
      .ok (utf8DecodeStr ([97, 98, 99, 100, 0].take 4), 4 + 5) ∧
    read_fstring (le4 (2 ^ 32 - 5) ++ [97, 0, 98, 0, 99, 0, 100, 0, 0, 0] ++ []) 0 =
      .ok (some (String.mk (utf16Lossy (toU16LE ([97, 0, 98, 0, 99, 0, 100, 0, 0, 0].take 8)))),
        4 + 2 * 5) :=
  ⟨c7_read_fstring_branches.1 5 [97, 98, 99, 100, 0] [] (by decide) (by decide) (by decide),
   c7_read_fstring_branches.2.1 5 [97, 0, 98, 0, 99, 0, 100, 0, 0, 0] []
     (by decide) (by decide) (by decide)⟩

/-- C8: when the custom fields hold neither `SourceURL` nor `BaseUrl`,
URL derivation returns the absent map, and `files()` still has an entry for
every filename of the file-manifest list — with an empty chunk-part list,
hence no links attached. -/
theorem c8_missing_base_empty_links (m : DownloadManifest)
    (h1 : m.custom_field "SourceURL" = none) (h2 : m.custom_field "BaseUrl" = none) :
    m.download_links = none ∧
    ∀ f ∈ m.file_manifest_list, ∃ e, lookupAL m.files f.filename = some e ∧
      e.filename = f.filename ∧ e.file_chunk_parts = [] := by
  have hdl : m.download_links = none := by
    unfold DownloadManifest.download_links
    rw [h1, h2]
  have hfl : m.files = filesFold [] m.file_manifest_list [] := by
    unfold DownloadManifest.files
    rw [hdl]
    rfl
  refine ⟨hdl, ?_⟩
  intro f hf
  have hmem : f.filename ∈ keysAL (filesFold [] m.file_manifest_list []) :=
    mem_keysAL_filesFold [] m.file_manifest_list [] f.filename
      (Or.inr (List.mem_map_of_mem _ hf))
  obtain ⟨e, he⟩ := (lookupAL_isSome_iff _ _).mpr hmem
  rcases filesFold_lookup_eq [] m.file_manifest_list [] f.filename e he with
    ⟨f', _, hn, hee⟩ | hacc
  · subst hee
    refine ⟨projectFile [] f', by rw [hfl]; exact he, hn, ?_⟩
    simp [projectFile, lookupAL]
  · simp [lookupAL] at hacc

/-- C8 witness: the missing-base behaviour at a concrete one-file
manifest. -/
theorem c8_missing_base_empty_links_witness :
    c8manifest.download_links = none ∧
    ∃ e, lookupAL c8manifest.files "f" = some e ∧
      e.filename = "f" ∧ e.file_chunk_parts = [] := by
  have h := c8_missing_base_empty_links c8manifest (by decide) (by decide)
  exact ⟨h.1, h.2 { filename := "f", file_hash := ""
                    file_chunk_parts := [{ guid := "g", link := none, offset := 0, size := 1 }] }
    (by decide)⟩

set_option maxRecDepth 1000000 in
/-- C9: the claim says a JSON hash-map field with two distinct string keys
that collide after key parsing (e.g. `"0"` and `"00"`) is rejected.  The
code refutes it: `str_key.parse()` elaborates at type `String` (infallible
identity), so keys are never parsed to integers, the duplicate check
compares equal lengths, and the document is accepted with both keys kept
distinct. -/
theorem c9_colliding_keys_accepted :
    deserialize_epic_hashmap [("0", "001"), ("00", "002")] =
      .ok (some [("0", 1), ("00", 2)]) ∧
    dm_from_json c9doc = .ok (some c9manifest) := by
  exact ⟨by decide, by decide⟩

/-- C10: `set_custom_field` makes `custom_field` return the new value at
that key, leaves every other key's `custom_field` unchanged, leaves every
field of the manifest other than `custom_fields` unchanged, and creates a
one-entry mapping when `custom_fields` was absent. -/
theorem c10_set_custom_field_frame (m : DownloadManifest) (k v k' : String)
    (hne : k' ≠ k) :
    (m.set_custom_field k v).custom_field k = some v ∧
    (m.set_custom_field k v).custom_field k' = m.custom_field k' ∧
    ((m.set_custom_field k v).manifest_file_version = m.manifest_file_version ∧
     (m.set_custom_field k v).b_is_file_data = m.b_is_file_data ∧
     (m.set_custom_field k v).app_id = m.app_id ∧
     (m.set_custom_field k v).app_name_string = m.app_name_string ∧
     (m.set_custom_field k v).build_version_string = m.build_version_string ∧
     (m.set_custom_field k v).uninstall_action_path = m.uninstall_action_path ∧
     (m.set_custom_field k v).uninstall_action_args = m.uninstall_action_args ∧
     (m.set_custom_field k v).launch_exe_string = m.launch_exe_string ∧
     (m.set_custom_field k v).launch_command = m.launch_command ∧
     (m.set_custom_field k v).prereq_ids = m.prereq_ids ∧
     (m.set_custom_field k v).prereq_name = m.prereq_name ∧
     (m.set_custom_field k v).prereq_path = m.prereq_path ∧
     (m.set_custom_field k v).prereq_args = m.prereq_args ∧
     (m.set_custom_field k v).file_manifest_list = m.file_manifest_list ∧
     (m.set_custom_field k v).chunk_hash_list = m.chunk_hash_list ∧
     (m.set_custom_field k v).chunk_sha_list = m.chunk_sha_list ∧
     (m.set_custom_field k v).data_group_list = m.data_group_list ∧
     (m.set_custom_field k v).chunk_filesize_list = m.chunk_filesize_list) ∧
    (m.custom_fields = none → (m.set_custom_field k v).custom_fields = some [(k, v)]) := by
  rcases hm : m.custom_fields with _ | fields <;>
    simp [DownloadManifest.set_custom_field, DownloadManifest.custom_field, hm,
      lookupAL, lookupAL_insertAL_self, lookupAL_insertAL_ne _ _ _ _ hne, Ne.symm hne]

/-- C10 witness: the read-back law at a concrete key and value. -/
theorem c10_set_custom_field_frame_witness :
    (DownloadManifest.default.set_custom_field "a" "b").custom_field "a" = some "b" :=
  (c10_set_custom_field_frame DownloadManifest.default "a" "b" "c" (by decide)).1
